import Mathlib

/-!
Shallow embedding of the static evaluation engine of the Fairy-Stockfish
variant chess program (src/src/evaluate.cpp together with the read-only
position interface of src/src/position.h).

The board model, the material cache, the pawn-structure cache and the
bitboard primitives are external collaborators (their sources are not part
of the excerpt); they are modelled as fields of the `Pos` structure below,
one field per query the evaluator performs, following the consumed
interface described in the specification.  Everything that lives in
`evaluate.cpp` and in the inline part of `position.h` is translated
definition by definition.

Bitboards are modelled as finite sets of squares over an abstract finite
square type; `popcount` is `Finset.card`, `&`/`|`/`^`/`~` are
intersection, union, symmetric difference and complement.  The C++ `Score`
(a packed middlegame/endgame pair) is a pair of integers with componentwise
arithmetic, exactly as the overloaded operators of `types.h` behave.
Machine-integer division truncates toward zero, which is `Int.tdiv`.
-/

namespace SF

/-- The two colors of the game, `WHITE` and `BLACK`. -/
inductive Color where
  | white
  | black
deriving DecidableEq, Repr

/-- The `~c` operation on colors. -/
def Color.other : Color → Color
  | .white => .black
  | .black => .white

/-- A tapered score: the `Score` type of `types.h`, holding a middlegame and
an endgame component which are combined only at final interpolation. -/
structure Score where
  mg : Int
  eg : Int
deriving DecidableEq, Repr

instance : Add Score := ⟨fun a b => ⟨a.mg + b.mg, a.eg + b.eg⟩⟩

instance : Sub Score := ⟨fun a b => ⟨a.mg - b.mg, a.eg - b.eg⟩⟩

instance : Neg Score := ⟨fun a => ⟨-a.mg, -a.eg⟩⟩

instance : OfNat Score 0 := ⟨⟨0, 0⟩⟩

/-- `operator*(Score, int)` of `types.h`: componentwise scaling. -/
def Score.scale (s : Score) (n : Int) : Score := ⟨s.mg * n, s.eg * n⟩

/-- `operator/(Score, int)` of `types.h`: componentwise truncated division. -/
def Score.idiv (s : Score) (n : Int) : Score := ⟨Int.tdiv s.mg n, Int.tdiv s.eg n⟩

/-- Conversion of a boolean condition to the integer `0`/`1`, the way C++
implicitly converts `bool` in arithmetic expressions. -/
def btiP (p : Prop) [Decidable p] : Int := if p then 1 else 0

/-- Piece-type indices, following the `PieceType` enumeration of `types.h`
(not part of the excerpt): `ALL_PIECES = 0`, then `PAWN`, `KNIGHT`,
`BISHOP`, `ROOK`, `QUEEN`; the fairy types, `SHOGI_PAWN` among them, sit
between `QUEEN` and `KING`.  The numeric positions of `SHOGI_PAWN` and
`KING` are data of the model (`Pos.shogiPawnPT`, `Pos.kingPT`). -/
def ALL_PIECES : ℕ := 0

/-- `PAWN` piece-type index. -/
def PAWN : ℕ := 1

/-- `KNIGHT` piece-type index. -/
def KNIGHT : ℕ := 2

/-- `BISHOP` piece-type index. -/
def BISHOP : ℕ := 3

/-- `ROOK` piece-type index. -/
def ROOK : ℕ := 4

/-- `QUEEN` piece-type index. -/
def QUEEN : ℕ := 5

/-- Modelled from the spec: middlegame material value constants from
`types.h` (not part of the excerpt; the spec consumes them as "material
counts and non-pawn material sums").  Values are those of the upstream
engine generation this code derives from; the theorems below depend only
on coarse facts such as the queen outweighing rook and knight. -/
def pieceValueMg : ℕ → Int
  | 1 => 136
  | 2 => 782
  | 3 => 830
  | 4 => 1289
  | 5 => 2529
  | _ => 0

/-- Modelled from the spec: endgame material value constants from
`types.h` (not part of the excerpt). -/
def pieceValueEg : ℕ → Int
  | 1 => 208
  | 2 => 865
  | 3 => 918
  | 4 => 1378
  | 5 => 2687
  | _ => 0

/-- `PawnValueMg` of `types.h`. -/
def PawnValueMg : Int := pieceValueMg PAWN

/-- `KnightValueMg` of `types.h`. -/
def KnightValueMg : Int := pieceValueMg KNIGHT

/-- `BishopValueMg` of `types.h`. -/
def BishopValueMg : Int := pieceValueMg BISHOP

/-- `RookValueMg` of `types.h`. -/
def RookValueMg : Int := pieceValueMg ROOK

/-- `QueenValueMg` of `types.h`. -/
def QueenValueMg : Int := pieceValueMg QUEEN

/-- `QueenValueEg` of `types.h`. -/
def QueenValueEg : Int := pieceValueEg QUEEN

/-- Modelled from the spec: the flat tempo constant `Tempo` of `types.h`
(not part of the excerpt; the spec calls it "a fixed constant").  Its
exact magnitude is immaterial to the theorems below. -/
def Tempo : Int := 28

/-- Modelled from the spec: the `VALUE_NONE` sentinel of `types.h` (not
part of the excerpt), against which `extinction_value()` is compared. -/
def VALUE_NONE : Int := 32002

/-- Modelled from the spec: the `VALUE_MATE` constant of `types.h` (not
part of the excerpt), against which `extinction_value()` is compared in
the passed-pawn scorer. -/
def VALUE_MATE : Int := 32000

/-- `PHASE_MIDGAME` of `types.h`. -/
def PHASE_MIDGAME : Int := 128

/-- `SCALE_FACTOR_NORMAL` of `types.h`. -/
def SCALE_FACTOR_NORMAL : Int := 64

/-- Threshold for space evaluation (`SpaceThreshold`, evaluate.cpp line 88). -/
def SpaceThreshold : Int := 12222

/-- `KingAttackWeights[PieceType]`: king attack weights by piece type
(evaluate.cpp line 91); entries beyond the initializer are value-zero. -/
def KingAttackWeights (t : ℕ) : Int := ([0, 0, 77, 55, 44, 10] : List Int).getD t 0

/-- Penalty for a safe queen check (evaluate.cpp line 94). -/
def QueenSafeCheck : Int := 780

/-- Penalty for a safe rook check (evaluate.cpp line 95). -/
def RookSafeCheck : Int := 880

/-- Penalty for a safe bishop check (evaluate.cpp line 96). -/
def BishopSafeCheck : Int := 435

/-- Penalty for a safe knight check (evaluate.cpp line 97). -/
def KnightSafeCheck : Int := 790

/-- Penalty for a safe check by any other piece type (evaluate.cpp line 98). -/
def OtherSafeCheck : Int := 600

/-- Knight row of `MobilityBonus` (evaluate.cpp lines 109-110). -/
def mobilityBonusKnight : List Score :=
  [⟨-75, -76⟩, ⟨-57, -54⟩, ⟨-9, -28⟩, ⟨-2, -10⟩, ⟨6, 5⟩, ⟨14, 12⟩,
   ⟨22, 26⟩, ⟨29, 29⟩, ⟨36, 29⟩]

/-- Bishop row of `MobilityBonus` (evaluate.cpp lines 111-113). -/
def mobilityBonusBishop : List Score :=
  [⟨-48, -59⟩, ⟨-20, -23⟩, ⟨16, -3⟩, ⟨26, 13⟩, ⟨38, 24⟩, ⟨51, 42⟩,
   ⟨55, 54⟩, ⟨63, 57⟩, ⟨63, 65⟩, ⟨68, 73⟩, ⟨81, 78⟩, ⟨81, 86⟩,
   ⟨91, 88⟩, ⟨98, 97⟩]

/-- Rook row of `MobilityBonus` (evaluate.cpp lines 114-116). -/
def mobilityBonusRook : List Score :=
  [⟨-58, -76⟩, ⟨-27, -18⟩, ⟨-15, 28⟩, ⟨-10, 55⟩, ⟨-5, 69⟩, ⟨-2, 82⟩,
   ⟨9, 112⟩, ⟨16, 118⟩, ⟨30, 132⟩, ⟨29, 142⟩, ⟨32, 155⟩, ⟨38, 165⟩,
   ⟨46, 166⟩, ⟨48, 169⟩, ⟨58, 171⟩]

/-- Queen row of `MobilityBonus` (evaluate.cpp lines 117-121). -/
def mobilityBonusQueen : List Score :=
  [⟨-39, -36⟩, ⟨-21, -15⟩, ⟨3, 8⟩, ⟨3, 18⟩, ⟨14, 34⟩, ⟨22, 54⟩,
   ⟨28, 61⟩, ⟨41, 73⟩, ⟨43, 79⟩, ⟨48, 92⟩, ⟨56, 94⟩, ⟨60, 104⟩,
   ⟨60, 113⟩, ⟨66, 120⟩, ⟨67, 123⟩, ⟨70, 126⟩, ⟨71, 133⟩, ⟨73, 136⟩,
   ⟨79, 140⟩, ⟨88, 143⟩, ⟨88, 148⟩, ⟨99, 166⟩, ⟨102, 170⟩, ⟨102, 175⟩,
   ⟨106, 184⟩, ⟨109, 191⟩, ⟨113, 206⟩, ⟨116, 212⟩]

/-- `MobilityBonus[Pt - 2][mob]` (evaluate.cpp lines 104-122): indexed by
piece type minus two and the mobility count; unlisted array entries are
value-initialized to zero. -/
def MobilityBonus (row mob : ℕ) : Score :=
  (match row with
   | 0 => mobilityBonusKnight
   | 1 => mobilityBonusBishop
   | 2 => mobilityBonusRook
   | 3 => mobilityBonusQueen
   | _ => []).getD mob 0

/-- `MaxMobility` (evaluate.cpp line 123). -/
def MaxMobility : Score := ⟨300, 300⟩

/-- `DropMobility` (evaluate.cpp line 124). -/
def DropMobility : Score := ⟨10, 10⟩

/-- `Outpost[knight/bishop][supported by pawn]` (evaluate.cpp lines 129-132). -/
def Outpost (isBishop : Prop) [Decidable isBishop] (supported : Prop) [Decidable supported] :
    Score :=
  if isBishop then (if supported then ⟨15, 5⟩ else ⟨9, 2⟩)
  else (if supported then ⟨36, 12⟩ else ⟨22, 6⟩)

/-- `RookOnFile[semiopen/open]` (evaluate.cpp line 136). -/
def RookOnFile (isOpen : Prop) [Decidable isOpen] : Score :=
  if isOpen then ⟨45, 20⟩ else ⟨20, 7⟩

/-- `ThreatByMinor[attacked PieceType]` (evaluate.cpp lines 141-143). -/
def ThreatByMinor (t : ℕ) : Score :=
  ([⟨0, 0⟩, ⟨0, 31⟩, ⟨39, 42⟩, ⟨57, 44⟩, ⟨68, 112⟩, ⟨47, 120⟩] : List Score).getD t 0

/-- `ThreatByRook[attacked PieceType]` (evaluate.cpp lines 145-147). -/
def ThreatByRook (t : ℕ) : Score :=
  ([⟨0, 0⟩, ⟨0, 24⟩, ⟨38, 71⟩, ⟨38, 61⟩, ⟨0, 38⟩, ⟨36, 38⟩] : List Score).getD t 0

/-- `ThreatByKing[on one/on many]` (evaluate.cpp line 151). -/
def ThreatByKing (many : Prop) [Decidable many] : Score :=
  if many then ⟨9, 145⟩ else ⟨3, 65⟩

/-- `PassedRank[Rank]` (evaluate.cpp lines 154-156). -/
def PassedRank (r : ℕ) : Score :=
  ([⟨0, 0⟩, ⟨5, 7⟩, ⟨5, 13⟩, ⟨18, 23⟩, ⟨74, 58⟩, ⟨164, 166⟩, ⟨268, 243⟩] : List Score).getD r 0

/-- `PassedFile[File]` (evaluate.cpp lines 159-162). -/
def PassedFile (f : ℕ) : Score :=
  ([⟨15, 7⟩, ⟨-5, 14⟩, ⟨1, -5⟩, ⟨-22, -11⟩,
    ⟨-22, -11⟩, ⟨1, -5⟩, ⟨-5, 14⟩, ⟨15, 7⟩] : List Score).getD f 0

/-- `PassedDanger[Rank]` (evaluate.cpp line 165). -/
def PassedDanger (r : ℕ) : Int := ([0, 0, 0, 3, 6, 12, 21] : List Int).getD r 0

/-- `KingProtector[PieceType - 2]` (evaluate.cpp line 168). -/
def KingProtector (i : ℕ) : Score :=
  ([⟨3, 5⟩, ⟨4, 3⟩, ⟨3, 0⟩, ⟨1, -1⟩, ⟨2, 2⟩] : List Score).getD i 0

/-- `BishopPawns` (evaluate.cpp line 171). -/
def BishopPawns : Score := ⟨3, 5⟩

/-- `CloseEnemies` (evaluate.cpp line 172). -/
def CloseEnemies : Score := ⟨7, 0⟩

/-- `Connectivity` (evaluate.cpp line 173). -/
def Connectivity : Score := ⟨3, 1⟩

/-- `CorneredBishop` (evaluate.cpp line 174). -/
def CorneredBishop : Score := ⟨50, 50⟩

/-- `Hanging` (evaluate.cpp line 175). -/
def Hanging : Score := ⟨52, 30⟩

/-- `HinderPassedPawn` (evaluate.cpp line 176). -/
def HinderPassedPawn : Score := ⟨8, 1⟩

/-- `KnightOnQueen` (evaluate.cpp line 177). -/
def KnightOnQueen : Score := ⟨21, 11⟩

/-- `LongDiagonalBishop` (evaluate.cpp line 178). -/
def LongDiagonalBishop : Score := ⟨22, 0⟩

/-- `MinorBehindPawn` (evaluate.cpp line 179). -/
def MinorBehindPawn : Score := ⟨16, 0⟩

/-- `Overload` (evaluate.cpp line 180). -/
def Overload : Score := ⟨10, 5⟩

/-- `PawnlessFlank` (evaluate.cpp line 181). -/
def PawnlessFlank : Score := ⟨20, 80⟩

/-- `RookOnPawn` (evaluate.cpp line 182). -/
def RookOnPawn : Score := ⟨8, 24⟩

/-- `SliderOnQueen` (evaluate.cpp line 183). -/
def SliderOnQueen : Score := ⟨42, 21⟩

/-- `ThreatByPawnPush` (evaluate.cpp line 184). -/
def ThreatByPawnPush : Score := ⟨47, 26⟩

/-- `ThreatByRank` (evaluate.cpp line 185). -/
def ThreatByRank : Score := ⟨16, 3⟩

/-- `ThreatBySafePawn` (evaluate.cpp line 186). -/
def ThreatBySafePawn : Score := ⟨175, 168⟩

/-- `TrappedRook` (evaluate.cpp line 187). -/
def TrappedRook : Score := ⟨92, 0⟩

/-- `WeakQueen` (evaluate.cpp line 188). -/
def WeakQueen : Score := ⟨50, 10⟩

/-- `WeakUnopposedPawn` (evaluate.cpp line 189). -/
def WeakUnopposedPawn : Score := ⟨5, 25⟩

/-- The eight ray directions iterated by the connect-n scorer
(evaluate.cpp line 927). -/
inductive Dir where
  | n
  | ne
  | e
  | se
  | s
  | sw
  | w
  | nw
deriving DecidableEq, Repr

/-- Negation of a direction, as used by `shift(-d, ...)`. -/
def Dir.negd : Dir → Dir
  | .n => .s
  | .ne => .sw
  | .e => .w
  | .se => .nw
  | .s => .n
  | .sw => .ne
  | .w => .e
  | .nw => .se

/-- The direction list `{NORTH, NORTH_EAST, EAST, SOUTH_EAST, SOUTH,
SOUTH_WEST, WEST, NORTH_WEST}` of evaluate.cpp line 927. -/
def dirList : List Dir := [.n, .ne, .e, .se, .s, .sw, .w, .nw]

/-- A bitboard: a finite set of squares. -/
abbrev BB (Sq : Type) := Finset Sq

/-- Bitwise `xor` of two bitboards (the C++ `^` operator); for the uses in
the evaluator one operand is always contained in the other, making this a
set difference, but we keep the general symmetric difference. -/
def bbXor {Sq : Type} [DecidableEq Sq] (a b : BB Sq) : BB Sq := (a \ b) ∪ (b \ a)

/-- The read-only interface the evaluator consumes, bundling the board
model, the variant-rule predicates, the material-cache entry `me`, the
pawn-cache entry `pe` and the bitboard primitives of `bitboard.h` (all
external collaborators of the excerpt), one field per query.  Fields
standing for whole composite expressions of external primitives are noted
as such.  Defaults merely ease the construction of concrete witnesses. -/
structure Pos (Sq : Type) where
  /-- `pos.pieces()`: all occupied squares. -/
  pieces : BB Sq := ∅
  /-- `pos.pieces(c)`: squares occupied by color `c`. -/
  piecesC : Color → BB Sq := fun _ => ∅
  /-- `pos.pieces(pt)`: squares occupied by piece type `pt`, either color. -/
  piecesT : ℕ → BB Sq := fun _ => ∅
  /-- `pos.count(c, pt)` and `pos.count<Pt>(c)`: piece counts.  Index `0`
  (`ALL_PIECES`) counts all pieces of the color. -/
  cnt : Color → ℕ → ℕ := fun _ _ => 0
  /-- `pos.squares(c, pt)`: the piece list, in list order, terminated in the
  C++ by `SQ_NONE`. -/
  squaresL : Color → ℕ → List Sq := fun _ _ => []
  /-- `pos.square<KING>(c)`: the king square (meaningful when the king
  count is one). -/
  ksq : Color → Sq
  /-- `pos.square<QUEEN>(c)`: the queen square (meaningful when the queen
  count is one). -/
  qsq : Color → Sq
  /-- `pos.square<BISHOP>(c)`: the bishop square (meaningful when the
  bishop count is one). -/
  bsq : Color → Sq
  /-- `pos.empty(s)`. -/
  emptySq : Sq → Bool := fun _ => true
  /-- `type_of(pos.piece_on(s))`, `0` for an empty square. -/
  typeOn : Sq → ℕ := fun _ => 0
  /-- `pos.piece_on(s) == make_piece(c, pt)`. -/
  hasPieceOf : Color → ℕ → Sq → Bool := fun _ _ _ => false
  /-- `type_of(pos.unpromoted_piece_on(s))`, `0` when there is none. -/
  unpromotedOn : Sq → ℕ := fun _ => 0
  /-- `pos.blockers_for_king(c)`. -/
  blockersForKing : Color → BB Sq := fun _ => ∅
  /-- `pos.slider_blockers(sliders, s, pinners)` (return value only). -/
  sliderBlockers : BB Sq → Sq → BB Sq := fun _ _ => ∅
  /-- `pos.attacks_from(c, pt, s)`: attacks with the current occupancy. -/
  attacksFrom : Color → ℕ → Sq → BB Sq := fun _ _ _ => ∅
  /-- `pos.moves_from(c, pt, s)`: quiet moves with the current occupancy. -/
  movesFrom : Color → ℕ → Sq → BB Sq := fun _ _ _ => ∅
  /-- The free function `attacks_bb(c, pt, s, occupied)` of `bitboard.h`. -/
  attacksBB : Color → ℕ → Sq → BB Sq → BB Sq := fun _ _ _ _ => ∅
  /-- The free template `attacks_bb<Pt>(s, occupied)` of `bitboard.h`
  (color-independent sliding attacks, used for `BISHOP` and `ROOK`). -/
  attacksBBT : ℕ → Sq → BB Sq → BB Sq := fun _ _ _ => ∅
  /-- `pos.attackers_to(s)`: attackers of both colors, current occupancy. -/
  attackersTo : Sq → BB Sq := fun _ => ∅
  /-- `LineBB[a][b]` of `bitboard.h`: the full line through two squares. -/
  lineBB : Sq → Sq → BB Sq := fun _ _ => ∅
  /-- `PseudoAttacks[c][ROOK][s]` of `bitboard.h`. -/
  pseudoRook : Color → Sq → BB Sq := fun _ _ => ∅
  /-- `distance(a, b)` of `bitboard.h`. -/
  dist : Sq → Sq → ℕ := fun _ _ => 0
  /-- `distance<File>(a, b)` of `bitboard.h`. -/
  distF : Sq → Sq → ℕ := fun _ _ => 0
  /-- `distance<Rank>(a, b)` of `bitboard.h`. -/
  distR : Sq → Sq → ℕ := fun _ _ => 0
  /-- `pos.board_bb()`: the squares of the variant's board. -/
  boardBB : BB Sq := ∅
  /-- `relative_rank(c, s, pos.max_rank())` of `types.h` (`RANK_1 = 0`). -/
  relRankSq : Color → Sq → ℕ := fun _ _ => 0
  /-- `file_of(s)` (`FILE_A = 0`). -/
  fileIdx : Sq → ℕ := fun _ => 0
  /-- `pos.max_file()`. -/
  maxFile : ℕ := 7
  /-- `shift<Down>(b)` where `Down` is toward color `c`'s own side. -/
  shiftD : Color → BB Sq → BB Sq := fun _ _ => ∅
  /-- `shift<Up>(b)` where `Up` is away from color `c`'s own side. -/
  shiftU : Color → BB Sq → BB Sq := fun _ _ => ∅
  /-- `shift<WEST>(b)`. -/
  shiftW : BB Sq → BB Sq := fun _ => ∅
  /-- `shift<EAST>(b)`. -/
  shiftE : BB Sq → BB Sq := fun _ => ∅
  /-- `shift(d, b)` of `bitboard.h` for the eight ray directions. -/
  shiftDir : Dir → BB Sq → BB Sq := fun _ _ => ∅
  /-- `s + pawn_push(c)`: the square one step up for color `c`. -/
  upSq : Color → Sq → Sq := fun _ s => s
  /-- `s + pawn_push(c) + EAST` (flag `true`) or `+ WEST` (flag `false`):
  the diagonal steps of the cornered-bishop pattern. -/
  pushEW : Color → Bool → Sq → Sq := fun _ _ s => s
  /-- `promotion_zone_bb(c, pos.promotion_rank(), pos.max_rank())`. -/
  promZone : Color → BB Sq := fun _ => ∅
  /-- `forward_file_bb(c, s)` of `bitboard.h`. -/
  forwardFile : Color → Sq → BB Sq := fun _ _ => ∅
  /-- `passed_pawn_mask(c, s)` of `bitboard.h`. -/
  ppMask : Color → Sq → BB Sq := fun _ _ => ∅
  /-- The enemy-half mask computed in the hand scorer (evaluate.cpp line
  467): `pos.board_bb() & ~forward_ranks_bb(Them, ...)` for `Us = c`. -/
  halfFor : Color → BB Sq := fun _ => ∅
  /-- The king-flank mask of evaluate.cpp lines 575-576 as a function of
  the king square: `KingFlank[clamped file]` on the standard board, else
  the file and its neighbours. -/
  flankOf : Sq → BB Sq := fun _ => ∅
  /-- `Camp` of evaluate.cpp lines 479-480: the complement of
  `forward_ranks_bb(c, r)` for the mid-board rank `r`. -/
  campOf : Color → BB Sq := fun _ => ∅
  /-- `LowRanks` of evaluate.cpp line 264: the relative second and third
  ranks of color `c`. -/
  lowRanks : Color → BB Sq := fun _ => ∅
  /-- `OutpostRanks` of evaluate.cpp lines 311-312 for color `c`. -/
  outpostRanks : Color → BB Sq := fun _ => ∅
  /-- `SpaceMask` of evaluate.cpp lines 850-852 for color `c`. -/
  spaceMask : Color → BB Sq := fun _ => ∅
  /-- `TRank3BB` of evaluate.cpp line 608 for color `c`. -/
  trank3 : Color → BB Sq := fun _ => ∅
  /-- `Center` (evaluate.cpp line 79). -/
  centerBB : BB Sq := ∅
  /-- `QueenSide` (evaluate.cpp line 76). -/
  queenSideBB : BB Sq := ∅
  /-- `KingSide` (evaluate.cpp line 78). -/
  kingSideBB : BB Sq := ∅
  /-- `CenterFiles` (evaluate.cpp line 77). -/
  centerFilesBB : BB Sq := ∅
  /-- `opposite_colors(a, b)` of `types.h`. -/
  oppColors : Sq → Sq → Bool := fun _ _ => false
  /-- `relative_square(c, SQ_A1)`. -/
  relSqA1 : Color → Sq
  /-- `relative_square(c, SQ_H1)`. -/
  relSqH1 : Color → Sq
  /-- `pe->pawn_attacks(c)`. -/
  pawnAttacks : Color → BB Sq := fun _ => ∅
  /-- `pe->pawn_attacks_span(c)`. -/
  pawnAttacksSpan : Color → BB Sq := fun _ => ∅
  /-- `pe->king_safety<c>(pos, ksq)`. -/
  kingSafety : Color → Sq → Score := fun _ _ => 0
  /-- `pe->semiopen_file(c, f)` as a boolean. -/
  semiopen : Color → ℕ → Bool := fun _ _ => false
  /-- `pe->pawns_on_same_color_squares(c, s)`. -/
  pawnsOnSameColor : Color → Sq → ℕ := fun _ _ => 0
  /-- `pe->weak_unopposed(c)`. -/
  weakUnopposed : Color → ℕ := fun _ => 0
  /-- `pe->open_files()`. -/
  openFiles : ℕ := 0
  /-- `pe->pawn_asymmetry()`. -/
  pawnAsymmetry : ℕ := 0
  /-- `pe->passed_pawns(c)`. -/
  passedPawns : Color → BB Sq := fun _ => ∅
  /-- `pe->pawn_score(c)`. -/
  pawnScore : Color → Score := fun _ => 0
  /-- `me->imbalance()`. -/
  imbalance : Score := 0
  /-- `me->game_phase()`. -/
  gamePhase : Int := 128
  /-- `me->specialized_eval_exists()`. -/
  specExists : Bool := false
  /-- `me->evaluate(pos)`, the specialized evaluation shortcut. -/
  specEval : Int := 0
  /-- `me->scale_factor(pos, strongSide)`. -/
  mscaleFactor : Color → Int := fun _ => 64
  /-- `pos.this_thread()->contempt`: thread state, not position state. -/
  contempt : Score := 0
  /-- `pos.psq_score()`. -/
  psq : Score := 0
  /-- `pos.non_pawn_material(c)`. -/
  npm : Color → Int := fun _ => 0
  /-- `pos.side_to_move()`. -/
  sideToMove : Color := .white
  /-- The free template `pawn_attacks_bb<c>(b)` of `bitboard.h`. -/
  pawnAttacksBBF : Color → BB Sq → BB Sq := fun _ _ => ∅
  /-- `pos.is_chess960()`. -/
  chess960 : Bool := false
  /-- `pos.must_capture()`. -/
  mustCapture : Bool := false
  /-- `pos.captures_to_hand()`. -/
  capturesToHand : Bool := false
  /-- `pos.piece_drops()`. -/
  pieceDrops : Bool := false
  /-- `pos.checking_permitted()`. -/
  checkingPermitted : Bool := false
  /-- `pos.shogi_doubled_pawn()`. -/
  shogiDoubledPawn : Bool := false
  /-- `pos.max_check_count()`. -/
  maxCheckCount : ℕ := 0
  /-- `pos.connect_n()`. -/
  connectN : ℕ := 0
  /-- `pos.extinction_value()` at ply zero. -/
  extinctionVal : Int := 32002
  /-- `pos.can_castle(c)` as a boolean. -/
  canCastle : Color → Bool := fun _ => false
  /-- `pos.checks_given(c)`. -/
  checksGiven : Color → ℕ := fun _ => 0
  /-- `pos.capture_the_flag_piece()`. -/
  ctfPiece : ℕ := 0
  /-- `pos.capture_the_flag(c)`: the flag target squares of color `c`. -/
  ctfTargets : Color → BB Sq := fun _ => ∅
  /-- `pos.promoted_piece_type(pt)`, `0` (`NO_PIECE_TYPE`) when none. -/
  promotedPieceType : ℕ → ℕ := fun _ => 0
  /-- `pos.promotion_piece_types()` as a list. -/
  promotionPieceTypes : List ℕ := []
  /-- `pos.piece_types()` as a list (the variant's piece-type set). -/
  pieceTypesL : List ℕ := []
  /-- The numeric value of the `KING` piece-type enumerator. -/
  kingPT : ℕ := 7
  /-- The numeric value of the `SHOGI_PAWN` piece-type enumerator. -/
  shogiPawnPT : ℕ := 6
  /-- `pos.drop_region(c, pt)`. -/
  dropRegion : Color → ℕ → BB Sq := fun _ _ => ∅
  /-- `pos.count_in_hand(c, pt)`. -/
  countInHand : Color → ℕ → ℕ := fun _ _ => 0

/-- The indeterminate initial contents of the `kingAttackersWeight` and
`kingAttacksCount` members of the `Evaluation` class, which the C++ leaves
uninitialized unless the king-safety condition of `initialize()` holds. -/
structure Junk where
  kaw : Color → Int := fun _ => 0
  kak : Color → Int := fun _ => 0

section Defs

variable {Sq : Type} [DecidableEq Sq]

/-- `pos.pieces(c, pt)` (position.h line 655): color and type bitboard. -/
def piecesCT (p : Pos Sq) (c : Color) (t : ℕ) : BB Sq := p.piecesC c ∩ p.piecesT t

/-- `pos.pieces(c, pt1, pt2)` (position.h line 659). -/
def piecesC2T (p : Pos Sq) (c : Color) (t1 t2 : ℕ) : BB Sq :=
  p.piecesC c ∩ (p.piecesT t1 ∪ p.piecesT t2)

/-- `pos.pieces(pt1, pt2)` (position.h line 647). -/
def pieces2T (p : Pos Sq) (t1 t2 : ℕ) : BB Sq := p.piecesT t1 ∪ p.piecesT t2

/-- `pos.pawn_passed(c, s)` (position.h line 741): no enemy pawns in the
passed-pawn mask of the square. -/
def pawnPassed (p : Pos Sq) (c : Color) (s : Sq) : Prop :=
  piecesCT p c.other PAWN ∩ p.ppMask c s = ∅

instance (p : Pos Sq) (c : Color) (s : Sq) : Decidable (pawnPassed p c s) := by
  unfold pawnPassed; infer_instance

/-- `pos.opposite_bishops()` (position.h lines 782-786). -/
def oppositeBishops (p : Pos Sq) : Prop :=
  p.cnt .white BISHOP = 1 ∧ p.cnt .black BISHOP = 1 ∧
    p.oppColors (p.bsq .white) (p.bsq .black) = true

instance (p : Pos Sq) : Decidable (oppositeBishops p) := by
  unfold oppositeBishops; infer_instance

/-- `pos.non_pawn_material()` (position.h line 770): both colors summed. -/
def npmTotal (p : Pos Sq) : Int := p.npm .white + p.npm .black

/-- The blocked-or-low-rank pawn set `b` of `initialize()` (evaluate.cpp
line 267): own pawns that are blocked or stand on the two low ranks. -/
def blockedLowPawns (p : Pos Sq) (c : Color) : BB Sq :=
  piecesCT p c PAWN ∩ (p.shiftD c p.pieces ∪ p.lowRanks c)

variable [Fintype Sq]

/-- The mobility area of `initialize()` (evaluate.cpp lines 271-274): the
full board (`AllSquares`) under mandatory capture, otherwise the complement
of blocked/low pawns, own king and queen squares, enemy pawn attacks and
squares in front of enemy shogi pawns. -/
def mobilityAreaOf (p : Pos Sq) (c : Color) : BB Sq :=
  if p.mustCapture then Finset.univ
  else (blockedLowPawns p c ∪ piecesC2T p c p.kingPT QUEEN ∪
    p.pawnAttacks c.other ∪ p.shiftD c (piecesCT p c.other p.shogiPawnPT))ᶜ

/-- `attackedBy[c][KING]` as set by `initialize()` (evaluate.cpp line 277). -/
def atkKingInit (p : Pos Sq) (c : Color) : BB Sq :=
  if p.cnt c p.kingPT ≠ 0 then p.attacksFrom c p.kingPT (p.ksq c) else ∅

/-- The king-safety initialization condition of `initialize()` (evaluate.cpp
line 283): the color has a king and the enemy has at least rook plus knight
of non-pawn material, or the variant drops captures to hand. -/
def initCondition (p : Pos Sq) (c : Color) : Prop :=
  (p.cnt c p.kingPT ≠ 0 ∧ RookValueMg + KnightValueMg ≤ p.npm c.other) ∨
    p.capturesToHand = true

instance (p : Pos Sq) (c : Color) : Decidable (initCondition p c) := by
  unfold initCondition; infer_instance

/-- The king ring of `initialize()` (evaluate.cpp lines 285-295): the king
attack set, extended one rank up from the relative first rank and sideways
on the edge files, clipped to the board; empty when the king-safety
condition fails (line 301). -/
def kingRingOf (p : Pos Sq) (c : Color) : BB Sq :=
  if initCondition p c then
    let r0 := atkKingInit p c
    let r1 := if p.relRankSq c (p.ksq c) = 0 then r0 ∪ p.shiftU c r0 else r0
    let r2 :=
      if p.fileIdx (p.ksq c) = p.maxFile then r1 ∪ p.shiftW r1
      else if p.fileIdx (p.ksq c) = 0 then r1 ∪ p.shiftE r1
      else r1
    r2 ∩ p.boardBB
  else ∅

/-- The king-attacker counters of one color: the number of pieces attacking
the enemy king ring, their summed weights and the count of attacks on
squares directly adjacent to the enemy king. -/
structure Counters where
  kac : Int := 0
  kaw : Int := 0
  kak : Int := 0
deriving DecidableEq, Repr

/-- The counters of color `c` as left by `initialize<~c>()` (evaluate.cpp
lines 297-298 and 301): under the king-safety condition of the enemy color
the attacker count starts from the pawn attackers of the enemy ring and the
other two counters are zeroed; otherwise only the attacker count is zeroed
and the other two counters keep their indeterminate contents `j`. -/
def countersInit (p : Pos Sq) (j : Junk) (c : Color) : Counters :=
  if initCondition p c.other then
    { kac := (kingRingOf p c.other ∩ p.pawnAttacks c).card, kaw := 0, kak := 0 }
  else
    { kac := 0, kaw := j.kaw c, kak := j.kak c }

end Defs

/-- Componentwise sum of attacker counters. -/
def addCtr (a b : Counters) : Counters :=
  { kac := a.kac + b.kac, kaw := a.kaw + b.kaw, kak := a.kak + b.kak }

section Defs2

variable {Sq : Type} [DecidableEq Sq] [Fintype Sq]

/-- The pinned-slider restriction applied to an attack set (evaluate.cpp
lines 332-333): a piece that is a sliding blocker for its own king only
attacks along the line through its king and itself. -/
def pinRestrict (p : Pos Sq) (c : Color) (s : Sq) (b : BB Sq) : BB Sq :=
  if s ∈ p.blockersForKing c then b ∩ p.lineBB (p.ksq c) s else b

/-- The attacked-square set of one piece as computed by `pieces()`
(evaluate.cpp lines 323-333): bishops look through all queens, rooks look
through all queens and own rooks, other types combine capture attacks on
occupied squares with quiet moves to empty squares; the set is clipped to
the board, and a piece that blocks a slider aimed at its own king is
restricted to the line through king and piece. -/
def pieceAttacks (p : Pos Sq) (c : Color) (pt : ℕ) (s : Sq) : BB Sq :=
  let b0 :=
    if pt = BISHOP then p.attacksBBT BISHOP s (bbXor p.pieces (p.piecesT QUEEN))
    else if pt = ROOK then
      p.attacksBBT ROOK s (bbXor (bbXor p.pieces (p.piecesT QUEEN)) (piecesCT p c ROOK))
    else (p.attacksFrom c pt s ∩ p.pieces) ∪ (p.movesFrom c pt s \ p.pieces)
  pinRestrict p c s (b0 ∩ p.boardBB)

/-- The running state of the per-piece-type scoring pass of one color: the
`attackedBy` table, the double-attack bitboard, the accumulated increments
of the king-attacker counters, the running mobility score and the
accumulated piece score. -/
structure PieceAcc (Sq : Type) where
  tbl : ℕ → BB Sq
  atk2 : BB Sq
  ctr : Counters
  mob : Score
  score : Score

/-- The mobility bonus of one piece (evaluate.cpp lines 348-351): the
tabulated tapered bonus for the orthodox sliders and leapers, and the
saturating formula `MaxMobility * (mob - 1) / (10 + mob)` for the fairy
types above the tabulated range. -/
def mobilityTerm (pt mob : ℕ) : Score :=
  if pt ≤ QUEEN then MobilityBonus (pt - 2) mob
  else (MaxMobility.scale ((mob : Int) - 1)).idiv (10 + (mob : Int))

/-- The per-piece score terms of `pieces()` (evaluate.cpp lines 353-442)
for one piece of type `pt` on square `s` with attack set `b` and mobility
count `mob`: promotion proximity, king-protector distance, outposts,
minor-behind-pawn, the bishop terms, the rook terms and the weak-queen
penalty. -/
def pieceScoreOf (p : Pos Sq) (c : Color) (pt : ℕ) (s : Sq) (b : BB Sq) (mob : ℕ) : Score :=
  let sc1 : Score :=
    if p.promotedPieceType pt ≠ 0 then
      (if (p.promZone c ∩ (b ∪ {s})).Nonempty then
        (Score.mk (pieceValueMg (p.promotedPieceType pt) - pieceValueMg pt)
          (pieceValueEg (p.promotedPieceType pt) - pieceValueEg pt)).idiv 10
       else 0)
    else if p.capturesToHand = true ∧ p.unpromotedOn s ≠ 0 then
      (Score.mk (pieceValueMg pt - pieceValueMg (p.unpromotedOn s))
        (pieceValueEg pt - pieceValueEg (p.unpromotedOn s))).idiv 8
    else 0
  let sc2 : Score :=
    if p.cnt c p.kingPT ≠ 0 then
      let d0 : Int := p.dist s (p.ksq c)
      let d : Int :=
        if p.capturesToHand = true ∧ p.cnt c.other p.kingPT ≠ 0 then
          d0 * p.dist s (p.ksq c.other)
        else d0
      sc1 - (KingProtector (min (pt - 2) (QUEEN - 1))).scale d
    else sc1
  let sc3 : Score :=
    if pt = BISHOP ∨ pt = KNIGHT then
      let bbO := p.outpostRanks c \ p.pawnAttacksSpan c.other
      let o1 :=
        if s ∈ bbO then sc2 + (Outpost (pt = BISHOP) (s ∈ p.pawnAttacks c)).scale 2
        else
          let bbO2 := bbO ∩ (b \ p.piecesC c)
          if bbO2.Nonempty then
            sc2 + Outpost (pt = BISHOP) ((p.pawnAttacks c ∩ bbO2).Nonempty)
          else sc2
      let o2 :=
        if p.relRankSq c s < 4 ∧ (p.piecesT PAWN ∩ {p.upSq c s}).Nonempty then
          o1 + MinorBehindPawn
        else o1
      let o3 :=
        if pt = BISHOP then
          let blocked := piecesCT p c PAWN ∩ p.shiftD c p.pieces
          let t1 := o2 - ((BishopPawns.scale (p.pawnsOnSameColor c s)).scale
            (1 + ((blocked ∩ p.centerFilesBB).card : Int)))
          if 1 < (p.centerBB ∩ (p.attacksBBT BISHOP s (p.piecesT PAWN) ∪ {s})).card then
            t1 + LongDiagonalBishop
          else t1
        else o2
      if pt = BISHOP ∧ p.chess960 = true ∧ (s = p.relSqA1 c ∨ s = p.relSqH1 c) then
        let sd := p.pushEW c (p.fileIdx s == 0) s
        if p.hasPieceOf c PAWN sd = true then
          o3 - (if ¬p.emptySq (p.upSq c sd) = true then CorneredBishop.scale 4
                else if p.hasPieceOf c PAWN (p.pushEW c (p.fileIdx s == 0) sd) = true then
                  CorneredBishop.scale 2
                else CorneredBishop)
        else o3
      else o3
    else sc2
  let sc4 : Score :=
    if pt = ROOK then
      let r1 :=
        if 4 ≤ p.relRankSq c s then
          sc3 + RookOnPawn.scale ((piecesCT p c.other PAWN ∩ p.pseudoRook c s).card)
        else sc3
      if p.semiopen c (p.fileIdx s) = true then
        r1 + RookOnFile (p.semiopen c.other (p.fileIdx s) = true)
      else if mob ≤ 3 ∧ p.cnt c p.kingPT ≠ 0 then
        let kf := p.fileIdx (p.ksq c)
        if (kf < 4) ↔ (p.fileIdx s < kf) then
          r1 - (TrappedRook - Score.mk (mob * 22) 0).scale (1 + btiP (¬p.canCastle c = true))
        else r1
      else r1
    else sc3
  if pt = QUEEN then
    if (p.sliderBlockers (piecesC2T p c.other ROOK BISHOP) s).Nonempty then sc4 - WeakQueen
    else sc4
  else sc4

/-- The body of the piece loop of `pieces()` (evaluate.cpp lines 321-443)
for one piece of type `pt` on square `s`. -/
def pieceStep (p : Pos Sq) (c : Color) (pt : ℕ) (acc : PieceAcc Sq) (s : Sq) : PieceAcc Sq :=
  let b := pieceAttacks p c pt s
  let mob := (b ∩ mobilityAreaOf p c).card
  { tbl := fun t =>
      if t = ALL_PIECES then acc.tbl ALL_PIECES ∪ b
      else if t = pt then acc.tbl pt ∪ b
      else acc.tbl t,
    atk2 := acc.atk2 ∪ (acc.tbl ALL_PIECES ∩ b),
    ctr :=
      if (b ∩ kingRingOf p c.other).Nonempty then
        { kac := acc.ctr.kac + 1,
          kaw := acc.ctr.kaw + KingAttackWeights (min pt QUEEN),
          kak := acc.ctr.kak + ((b ∩ atkKingInit p c.other).card : Int) }
      else acc.ctr,
    mob := acc.mob + mobilityTerm pt mob,
    score := acc.score + pieceScoreOf p c pt s b mob }

/-- The `attackedBy` table and double-attack bitboard as `initialize()`
leaves them (evaluate.cpp lines 277-280), before any per-piece scoring. -/
def initAcc (p : Pos Sq) (c : Color) : PieceAcc Sq :=
  { tbl := fun t =>
      if t = ALL_PIECES then atkKingInit p c ∪ p.pawnAttacks c
      else if t = PAWN then p.pawnAttacks c
      else if t = p.kingPT then atkKingInit p c
      else ∅,
    atk2 := atkKingInit p c ∩ p.pawnAttacks c,
    ctr := {},
    mob := 0,
    score := 0 }

/-- One call `pieces<c>(pt)` (evaluate.cpp lines 307-448): reset the
type's attack bitboard, then fold the piece list. -/
def piecesRun (p : Pos Sq) (c : Color) (acc : PieceAcc Sq) (pt : ℕ) : PieceAcc Sq :=
  let acc0 := { acc with tbl := fun t => if t = pt then ∅ else acc.tbl t }
  (p.squaresL c pt).foldl (pieceStep p c pt) acc0

/-- The whole per-piece scoring pass of one color: the loop
`for (PieceType pt = KNIGHT; pt < KING; ++pt)` of `value()`
(evaluate.cpp lines 1059-1060). -/
def piecesPhase (p : Pos Sq) (c : Color) : PieceAcc Sq :=
  (List.range' KNIGHT (p.kingPT - KNIGHT)).foldl (piecesRun p c) (initAcc p c)

/-- One call `hand<c>(pt)` (evaluate.cpp lines 452-472): the increments
it makes to the king-attacker counters and to the mobility score (its
returned score is always zero). -/
def handCalc (p : Pos Sq) (c : Color) (pt : ℕ) : Counters × Score :=
  if p.countInHand c pt ≠ 0 then
    let b := p.dropRegion c pt ∩ (p.pieces)ᶜ ∩
      (((piecesPhase p c.other).atk2)ᶜ ∪ (piecesPhase p c).tbl ALL_PIECES)
    let ctr : Counters :=
      if (b ∩ kingRingOf p c.other).Nonempty ∧ pt ≠ p.shogiPawnPT then
        { kac := p.countInHand c pt,
          kaw := KingAttackWeights (min pt QUEEN) * p.countInHand c pt,
          kak := ((b ∩ atkKingInit p c.other).card : Int) }
      else {}
    let mobAdd := DropMobility.scale
      ((b ∩ p.halfFor c ∩ ((piecesPhase p c.other).tbl ALL_PIECES)ᶜ).card)
    (ctr, mobAdd)
  else ({}, 0)

/-- The hand-scoring loop of `value()` (evaluate.cpp lines 1063-1065),
active only when the variant has piece drops: the summed counter and
mobility increments over all droppable piece types. -/
def handDeltas (p : Pos Sq) (c : Color) : Counters × Score :=
  if p.pieceDrops = true then
    ((List.range' PAWN (p.kingPT - PAWN)).map (handCalc p c)).foldl
      (fun a x => (addCtr a.1 x.1, a.2 + x.2)) ({}, 0)
  else ({}, 0)

/-- The final value of `kingAttackersCount`, `kingAttackersWeight` and
`kingAttacksCount` for color `c` once `initialize()`, the piece pass and
the hand pass have all run, starting from the indeterminate contents `j`
where `initialize()` left them unset. -/
def ctrFinal (p : Pos Sq) (j : Junk) (c : Color) : Counters :=
  addCtr (addCtr (countersInit p j c) (piecesPhase p c).ctr) (handDeltas p c).1

/-- The final running mobility score of color `c` (piece pass plus hand
pass). -/
def mobFinal (p : Pos Sq) (c : Color) : Score :=
  (piecesPhase p c).mob + (handDeltas p c).2

/-- The final `attackedBy[c]` table. -/
def atkTbl (p : Pos Sq) (c : Color) : ℕ → BB Sq := (piecesPhase p c).tbl

/-- The final `attackedBy2[c]` bitboard. -/
def atk2Of (p : Pos Sq) (c : Color) : BB Sq := (piecesPhase p c).atk2

end Defs2

instance : AddCommMonoid Score where
  add_assoc a b c := by
    cases a; cases b; cases c
    show Score.mk _ _ = Score.mk _ _
    rw [Score.mk.injEq]
    exact ⟨add_assoc _ _ _, add_assoc _ _ _⟩
  zero := ⟨0, 0⟩
  zero_add a := by
    cases a
    show Score.mk _ _ = Score.mk _ _
    rw [Score.mk.injEq]
    exact ⟨zero_add _, zero_add _⟩
  add_zero a := by
    cases a
    show Score.mk _ _ = Score.mk _ _
    rw [Score.mk.injEq]
    exact ⟨add_zero _, add_zero _⟩
  add_comm a b := by
    cases a; cases b
    show Score.mk _ _ = Score.mk _ _
    rw [Score.mk.injEq]
    exact ⟨add_comm _ _, add_comm _ _⟩
  nsmul := nsmulRec

section Defs3

variable {Sq : Type} [DecidableEq Sq] [Fintype Sq]

/-- The guard of the main king-safety evaluation (evaluate.cpp line 492):
the branch is entered when the attacker count of the enemy color exceeds
the queen-adjusted threshold `1 - count<QUEEN>(Them)`, or when the
variant returns captures to hand. -/
def dangerGuard (p : Pos Sq) (them : Color) (kac : Int) : Prop :=
  1 - (p.cnt them QUEEN : Int) < kac ∨ p.capturesToHand = true

instance (p : Pos Sq) (them : Color) (kac : Int) : Decidable (dangerGuard p them kac) := by
  unfold dangerGuard; infer_instance

/-- The lambda `get_attacks` of `king()` (evaluate.cpp lines 506-508): the
attack set of a piece type, widened to every empty square when the type can
be dropped from the hand. -/
def kingGetAttacks (p : Pos Sq) (c' : Color) (pt : ℕ) : BB Sq :=
  atkTbl p c' pt ∪
    (if p.capturesToHand = true ∧ p.countInHand c' pt ≠ 0 then (p.pieces)ᶜ else ∅)

/-- `weak` of `king()` (evaluate.cpp lines 498-500): attacked squares
defended at most once, and only by our queen or king. -/
def kingWeak (p : Pos Sq) (c : Color) : BB Sq :=
  atkTbl p c.other ALL_PIECES ∩ (atk2Of p c)ᶜ ∩
    ((atkTbl p c ALL_PIECES)ᶜ ∪ atkTbl p c p.kingPT ∪ atkTbl p c QUEEN)

/-- `safe` of `king()` (evaluate.cpp lines 503-504): potential check
squares not occupied by the checking side and not defended, or weakly
defended but doubly attacked. -/
def kingSafe (p : Pos Sq) (c : Color) : BB Sq :=
  (p.piecesC c.other)ᶜ ∩ ((atkTbl p c ALL_PIECES)ᶜ ∪ (kingWeak p c ∩ atk2Of p c.other))

/-- The candidate queen-check squares of `king()` (evaluate.cpp line 514). -/
def checkBQueen (p : Pos Sq) (c : Color) : BB Sq :=
  p.attacksBB c QUEEN (p.ksq c) (bbXor p.pieces (piecesCT p c QUEEN)) ∩
    kingGetAttacks p c.other QUEEN ∩ kingSafe p c ∩ (atkTbl p c QUEEN)ᶜ ∩ p.boardBB

/-- The candidate rook/bishop/knight check squares of `king()` (evaluate.cpp
line 521). -/
def checkBSlider (p : Pos Sq) (c : Color) (pt : ℕ) : BB Sq :=
  p.attacksBB c pt (p.ksq c) (bbXor p.pieces (piecesCT p c QUEEN)) ∩
    kingGetAttacks p c.other pt ∩ p.boardBB

/-- The candidate pawn-drop check squares of `king()` (evaluate.cpp line
532). -/
def checkBPawn (p : Pos Sq) (c : Color) : BB Sq :=
  p.attacksBB c PAWN (p.ksq c) p.pieces ∩ (p.pieces)ᶜ ∩ p.boardBB

/-- The candidate check squares for a fairy piece type in `king()`
(evaluate.cpp line 543). -/
def checkBOther (p : Pos Sq) (c : Color) (pt : ℕ) : BB Sq :=
  p.attacksBB c pt (p.ksq c) p.pieces ∩ kingGetAttacks p c.other pt ∩ p.boardBB

/-- One iteration of the check-classification loop of `king()`
(evaluate.cpp lines 509-549), accumulating the king-danger total and the
unsafe-check squares for piece type `pt`. -/
def checksStep (p : Pos Sq) (c : Color) (acc : Int × BB Sq) (pt : ℕ) : Int × BB Sq :=
  if pt = QUEEN then
    if (checkBQueen p c).Nonempty then (acc.1 + QueenSafeCheck, acc.2) else acc
  else if pt = ROOK ∨ pt = BISHOP ∨ pt = KNIGHT then
    let b := checkBSlider p c pt
    if (b ∩ kingSafe p c).Nonempty then
      (acc.1 + (if pt = ROOK then RookSafeCheck
                else if pt = BISHOP then BishopSafeCheck
                else KnightSafeCheck), acc.2)
    else (acc.1, acc.2 ∪ b)
  else if pt = PAWN then
    if p.capturesToHand = true ∧ p.countInHand c.other PAWN ≠ 0 then
      let b := checkBPawn p c
      if (b ∩ kingSafe p c).Nonempty then (acc.1 + OtherSafeCheck, acc.2)
      else (acc.1, acc.2 ∪ b)
    else acc
  else if pt = p.shogiPawnPT ∨ pt = p.kingPT then acc
  else
    let b := checkBOther p c pt
    if (b ∩ kingSafe p c).Nonempty then (acc.1 + OtherSafeCheck, acc.2)
    else (acc.1, acc.2 ∪ b)

/-- The accumulated `kingDanger` of `king()` just before it is transformed
into a score (evaluate.cpp lines 494-564). -/
def kingDangerOf (p : Pos Sq) (j : Junk) (c : Color) : Int :=
  let cs := p.pieceTypesL.foldl (checksStep p c) (0, ∅)
  let kd0 := if p.maxCheckCount ≠ 0 then cs.1 * 2 else cs.1
  let unsafeChecks := cs.2 ∩ mobilityAreaOf p c.other
  let hmul : Int := 1 + btiP (p.capturesToHand = true) + btiP (p.maxCheckCount ≠ 0)
  kd0 + (ctrFinal p j c.other).kac * (ctrFinal p j c.other).kaw
    + 102 * (ctrFinal p j c.other).kak * hmul
    + 191 * ((kingRingOf p c ∩ kingWeak p c).card : Int) * hmul
    + 143 * ((p.blockersForKing c ∪ unsafeChecks).card : Int)
    - Int.tdiv (848 * btiP (¬(p.cnt c.other QUEEN ≠ 0 ∨ p.capturesToHand = true)))
        (1 + btiP (p.maxCheckCount ≠ 0))
    - Int.tdiv (9 * (p.kingSafety c (p.ksq c)).mg) 8
    + 40

/-- The transformation of the `kingDanger` units into a score penalty
(evaluate.cpp lines 566-572): when the accumulated danger is positive, the
middlegame mobility difference of the two sides is added, the result is
clamped below at zero, and the score loses
`min(kingDanger^2 / 4096, 3000)` in the middlegame and `kingDanger / 16`
in the endgame. -/
def kingDangerTransform (kd : Int) (mobThem mobUs : Score) (score : Score) : Score :=
  if 0 < kd then
    let mobilityDanger := (mobThem - mobUs).mg
    let kd2 := max 0 (kd + mobilityDanger)
    score - Score.mk (min (Int.tdiv (kd2 * kd2) 4096) 3000) (Int.tdiv kd2 16)
  else score

/-- The final phase collapse of the king score for drop variants
(evaluate.cpp lines 590-592): the tapered score is replaced by its
middlegame value in both components, divided by three when the variant has
no doubled-shogi-pawn restriction. -/
def dropCollapse (p : Pos Sq) (score : Score) : Score :=
  if p.capturesToHand = true then
    (Score.mk score.mg score.mg).idiv (1 + 2 * btiP (¬p.shogiDoubledPawn = true))
  else score

/-- `king<c>()` (evaluate.cpp lines 476-598). -/
def kingScore (p : Pos Sq) (j : Junk) (c : Color) : Score :=
  if p.cnt c p.kingPT = 0 ∨ ¬p.checkingPermitted = true then 0
  else
    let ksq := p.ksq c
    let score0 := p.kingSafety c ksq
    let score1 :=
      if dangerGuard p c.other ((ctrFinal p j c.other).kac) then
        kingDangerTransform (kingDangerOf p j c) (mobFinal p c.other) (mobFinal p c) score0
      else score0
    let kf := p.flankOf ksq
    let score2 := if p.piecesT PAWN ∩ kf = ∅ then score1 - PawnlessFlank else score1
    let b1 := atkTbl p c.other ALL_PIECES ∩ kf ∩ p.campOf c
    let b2 := b1 ∩ atk2Of p c.other ∩ (atkTbl p c PAWN ∪ atkTbl p c p.shogiPawnPT)ᶜ
    let score3 := score2 - (CloseEnemies.scale ((b1.card : Int) + (b2.card : Int))).scale
      (1 + btiP (p.capturesToHand = true) + btiP (p.maxCheckCount ≠ 0))
    dropCollapse p score3

/-- `threats<c>()` (evaluate.cpp lines 604-729). -/
def threatsScore (p : Pos Sq) (c : Color) : Score :=
  let oc := c.other
  let s1 : Score :=
    if p.mustCapture = true then
      let a := -((Score.mk 100 100).scale ((atkTbl p c ALL_PIECES ∩ p.piecesC oc).card))
      let moves := (p.piecesC c).biUnion (fun s =>
        if p.typeOn s ≠ p.kingPT then p.movesFrom c (p.typeOn s) s else ∅)
      let a2 := a + (Score.mk 200 200).scale
        (((atkTbl p oc ALL_PIECES ∩ moves) \ p.pieces).card)
      a2 + (Score.mk 200 200).scale
        ((((atkTbl p oc ALL_PIECES ∩ moves) \ p.pieces) \ atk2Of p c).card)
    else 0
  let nonPawnEnemies := bbXor (p.piecesC oc) (piecesC2T p oc PAWN p.shogiPawnPT)
  let stronglyProtected := atkTbl p oc PAWN ∪ (atk2Of p oc \ atk2Of p c)
  let defended := nonPawnEnemies ∩ stronglyProtected
  let weak := (p.piecesC oc \ stronglyProtected) ∩ atkTbl p c ALL_PIECES
  let s2 : Score :=
    if (defended ∪ weak).Nonempty then
      let bMinor := (defended ∪ weak) ∩ (atkTbl p c KNIGHT ∪ atkTbl p c BISHOP)
      let addMinor := bMinor.sum (fun s => ThreatByMinor (p.typeOn s) +
        (if p.typeOn s ≠ PAWN ∧ p.typeOn s ≠ p.shogiPawnPT then
          ThreatByRank.scale (p.relRankSq oc s) else 0))
      let bRook := (piecesCT p oc QUEEN ∪ weak) ∩ atkTbl p c ROOK
      let addRook := bRook.sum (fun s => ThreatByRook (p.typeOn s) +
        (if p.typeOn s ≠ PAWN ∧ p.typeOn s ≠ p.shogiPawnPT then
          ThreatByRank.scale (p.relRankSq oc s) else 0))
      let bK := weak ∩ atkTbl p c p.kingPT
      let addK : Score := if bK.Nonempty then ThreatByKing (1 < bK.card) else 0
      let addHang := Hanging.scale ((weak \ atkTbl p oc ALL_PIECES).card)
      let bOver := (((nonPawnEnemies ∩ atkTbl p c ALL_PIECES) \ atk2Of p c) ∩
        atkTbl p oc ALL_PIECES) \ atk2Of p oc
      s1 + addMinor + addRook + addK + addHang + Overload.scale bOver.card
    else s1
  let s3 := if (piecesC2T p c ROOK QUEEN).Nonempty then
      s2 + WeakUnopposedPawn.scale (p.weakUnopposed oc)
    else s2
  let bSafePawns := piecesCT p c PAWN ∩ ((atkTbl p oc ALL_PIECES)ᶜ ∪ atkTbl p c ALL_PIECES)
  let safeThreats := (p.pawnAttacksBBF c bSafePawns ∪
    p.shiftU c (piecesCT p c p.shogiPawnPT)) ∩ nonPawnEnemies
  let s4 := s3 + ThreatBySafePawn.scale safeThreats.card
  let bp0 := p.shiftU c (piecesCT p c PAWN) \ p.pieces
  let bp1 := bp0 ∪ (p.shiftU c (bp0 ∩ p.trank3 c) \ p.pieces)
  let bp2 := bp1 ∩ (atkTbl p oc PAWN)ᶜ ∩ (atkTbl p c ALL_PIECES ∪ (atkTbl p oc ALL_PIECES)ᶜ)
  let bp3 := (p.pawnAttacksBBF c bp2 ∩ p.piecesC oc) \ atkTbl p c PAWN
  let s5 := s4 + ThreatByPawnPush.scale bp3.card
  let s6 :=
    if p.cnt oc QUEEN = 1 then
      let sq := p.qsq oc
      let safeT := mobilityAreaOf p c ∩ stronglyProtectedᶜ
      let a := s5 + KnightOnQueen.scale
        ((atkTbl p c KNIGHT ∩ p.attacksFrom c KNIGHT sq ∩ safeT).card)
      a + SliderOnQueen.scale
        ((((atkTbl p c BISHOP ∩ p.attacksFrom c BISHOP sq) ∪
           (atkTbl p c ROOK ∩ p.attacksFrom c ROOK sq)) ∩ safeT ∩ atk2Of p c).card)
    else s5
  let bConn := bbXor (bbXor (p.piecesC c) (piecesC2T p c PAWN p.kingPT))
    (piecesCT p c p.shogiPawnPT) ∩ atkTbl p c ALL_PIECES
  s6 + (Connectivity.scale bConn.card).scale (1 + 2 * btiP (p.capturesToHand = true))

/-- The lambda `king_proximity` of `passed()` (evaluate.cpp lines 740-742). -/
def kingProximity (p : Pos Sq) (c : Color) (s : Sq) : ℕ :=
  if p.cnt c p.kingPT ≠ 0 then min (p.dist (p.ksq c) s) 5 else 5

/-- The halving condition of `passed()` (evaluate.cpp lines 815-816): the
pawn would not be passed after one push, or some pawn of either color
occupies the file in front of it. -/
def passedHalveCond (p : Pos Sq) (c : Color) (s : Sq) : Prop :=
  ¬pawnPassed p c (p.upSq c s) ∨ (p.piecesT PAWN ∩ p.forwardFile c s).Nonempty

instance (p : Pos Sq) (c : Color) (s : Sq) : Decidable (passedHalveCond p c s) := by
  unfold passedHalveCond; infer_instance

/-- The contribution of one passed pawn in `passed()` (evaluate.cpp lines
749-820). -/
def passedPawnScore (p : Pos Sq) (c : Color) (s : Sq) : Score :=
  let oc := c.other
  let hinder := p.forwardFile c s ∩ (atkTbl p oc ALL_PIECES ∪ p.piecesC oc)
  let base : Score := -(HinderPassedPawn.scale hinder.card)
  let r := p.relRankSq c s
  let w := PassedDanger r
  let bonus0 := PassedRank r
  let bonus :=
    if w ≠ 0 then
      let blockSq := p.upSq c s
      let b1 :=
        if p.extinctionVal ≠ VALUE_MATE then
          let k1 := bonus0 + Score.mk 0
            (((kingProximity p oc blockSq : Int) * 5 - (kingProximity p c blockSq : Int) * 2) * w)
          if r ≠ 6 then k1 - Score.mk 0 ((kingProximity p c (p.upSq c blockSq) : Int) * w)
          else k1
        else bonus0
      if p.emptySq blockSq = true then
        let squaresToQueen := p.forwardFile c s
        let bb := p.forwardFile oc s ∩ pieces2T p ROOK QUEEN ∩ p.attacksFrom c ROOK s
        let ds := if ¬(p.piecesC c ∩ bb).Nonempty then squaresToQueen ∩ atkTbl p c ALL_PIECES
          else squaresToQueen
        let usq := if ¬(p.piecesC oc ∩ bb).Nonempty then
            squaresToQueen ∩ (atkTbl p oc ALL_PIECES ∪ p.piecesC oc)
          else squaresToQueen
        let k : Int := (if ¬usq.Nonempty then 20 else if blockSq ∉ usq then 9 else 0) +
          (if ds = squaresToQueen then 6 else if blockSq ∈ ds then 4 else 0)
        b1 + Score.mk (k * w) (k * w)
      else if blockSq ∈ p.piecesC c then b1 + Score.mk (w + (r : Int) * 2) (w + (r : Int) * 2)
      else b1
    else bonus0
  let bonus2 := if passedHalveCond p c s then bonus.idiv 2 else bonus
  base + bonus2 + PassedFile (p.fileIdx s)

/-- `passed<c>()` (evaluate.cpp lines 735-836): the summed per-pawn
contributions, scaled by the best promotion piece's value relative to a
queen. -/
def passedScore (p : Pos Sq) (c : Color) : Score :=
  let total := (p.passedPawns c).sum (passedPawnScore p c)
  let maxMg := p.promotionPieceTypes.foldl (fun a t => max a (pieceValueMg t)) 0
  let maxEg := p.promotionPieceTypes.foldl (fun a t => max a (pieceValueEg t)) 0
  Score.mk (Int.tdiv (total.mg * maxMg) QueenValueMg) (Int.tdiv (total.eg * maxEg) QueenValueEg)

/-- `space<c>()` (evaluate.cpp lines 847-883). -/
def spaceScore (p : Pos Sq) (c : Color) : Score :=
  let oc := c.other
  let pawnsOnly := bbXor (p.piecesC c) (piecesCT p c PAWN) = ∅
  if npmTotal p < SpaceThreshold ∧ ¬p.capturesToHand = true ∧ ¬pawnsOnly then 0
  else
    let safe0 := ((p.spaceMask c \ piecesC2T p c PAWN p.shogiPawnPT) ∩
      (atkTbl p oc PAWN)ᶜ) ∩ (atkTbl p oc p.shogiPawnPT)ᶜ
    let safe := if pawnsOnly then piecesCT p c PAWN ∩ (atkTbl p oc ALL_PIECES)ᶜ else safe0
    let behind0 := piecesC2T p c PAWN p.shogiPawnPT
    let behind1 := behind0 ∪ p.shiftD c behind0
    let behind2 := behind1 ∪ p.shiftD c (p.shiftD c behind1)
    let bonus : Int := (safe.card : Int) + ((behind2 ∩ safe).card : Int)
    let weight : Int := (p.cnt c ALL_PIECES : Int) - 2 * (p.openFiles : Int)
    Score.mk (Int.tdiv (bonus * weight * weight) 16) 0

/-- The inner run-length loop of the connect-n scorer (evaluate.cpp lines
931-934 and 938-941): iterate while the running bitboard is nonempty and
the fuel (`connect_n - i`) lasts, adding `coef * popcount(b) * i * i /
(connect_n - i)` and stepping the bitboard. -/
def connectGo (n : ℕ) (coef : Score) (step : BB Sq → BB Sq) :
    ℕ → ℕ → BB Sq → Score
  | 0, _, _ => 0
  | fuel + 1, i, b =>
    if b = ∅ then 0
    else (((coef.scale (b.card : Int)).scale (i : Int)).scale (i : Int)).idiv
        ((n : Int) - (i : Int)) +
      connectGo n coef step fuel (i + 1) (step b)

/-- The contribution of one ray direction to the connect-n bonus
(evaluate.cpp lines 927-943): a solid-run loop and a gapped-run loop. -/
def connectDirScore (p : Pos Sq) (c : Color) (d : Dir) : Score :=
  let oc := c.other
  let solidStep : BB Sq → BB Sq := fun b =>
    b ∩ p.shiftDir d.negd ((p.shiftDir d (p.shiftDir d b) ∩ (p.piecesC oc)ᶜ) ∩ p.boardBB)
  let gapStep : BB Sq → BB Sq := fun b =>
    b ∩ (p.shiftDir d.negd ((p.shiftDir d (p.shiftDir d b) ∩ (p.piecesC oc)ᶜ) ∩ p.boardBB) ∪
      p.shiftDir d (p.shiftDir d b \ p.pieces))
  connectGo p.connectN ⟨100, 100⟩ solidStep (p.connectN - 1) 1 (p.piecesC c) +
    connectGo p.connectN ⟨50, 50⟩ gapStep (p.connectN - 1) 1 (p.piecesC c)

/-- `variant<c>()` (evaluate.cpp lines 889-950): capture-the-flag race
bonus, check-count pressure and connect-n line potential. -/
def variantScore (p : Pos Sq) (c : Color) : Score :=
  let oc := c.other
  let s1 : Score :=
    if (p.ctfTargets c).Nonempty then
      let isKingCTF := p.ctfPiece = p.kingPT
      let scale := (p.cnt c p.ctfPiece : Int)
      (piecesCT p c p.ctfPiece).sum (fun sq1 =>
        (p.ctfTargets c).sum (fun sq2 =>
          let d : Int := (p.dist sq1 sq2 : Int) +
            (if isKingCTF then ((p.attackersTo sq2 ∩ p.piecesC oc).card : Int) else 0) +
            btiP (sq2 ∈ p.piecesC c)
          (Score.mk 2500 2500).idiv
            (1 + scale * d * (if ¬isKingCTF ∨ p.checkingPermitted = true then d else 1))))
    else 0
  let s2 :=
    if p.maxCheckCount ≠ 0 then
      let rem : Int := (p.maxCheckCount : Int) - (p.checksGiven c : Int)
      s1 + (Score.mk 3000 1000).idiv (rem * rem)
    else s1
  if 0 < p.connectN then s2 + (dirList.map (connectDirScore p c)).sum else s2

/-- The signed, capped application of the complexity bonus in
`initiative(eg)` (evaluate.cpp line 982): the sign of the endgame value
times the complexity floored at `-|eg|`. -/
def initiativeRaw (complexity eg : Int) : Int :=
  (btiP (0 < eg) - btiP (eg < 0)) * max complexity (-|eg|)

/-- `initiative(eg)` (evaluate.cpp lines 958-988). -/
def initiativeScore (p : Pos Sq) (eg : Int) : Score :=
  if p.extinctionVal ≠ VALUE_NONE ∨ p.capturesToHand = true ∨ p.connectN ≠ 0 then 0
  else
    let outflanking : Int :=
      if p.cnt .white p.kingPT = 0 ∨ p.cnt .black p.kingPT = 0 then 0
      else (p.distF (p.ksq .white) (p.ksq .black) : Int) -
        (p.distR (p.ksq .white) (p.ksq .black) : Int)
    let pawnsOnBothFlanks := (p.piecesT PAWN ∩ p.queenSideBB).Nonempty ∧
      (p.piecesT PAWN ∩ p.kingSideBB).Nonempty
    let complexity : Int := 8 * outflanking + 8 * (p.pawnAsymmetry : Int) +
      12 * ((p.cnt .white PAWN : Int) + (p.cnt .black PAWN : Int)) +
      16 * btiP pawnsOnBothFlanks + 48 * btiP (npmTotal p = 0) - 136
    Score.mk 0 (initiativeRaw complexity eg)

/-- `scale_factor(eg)` (evaluate.cpp lines 994-1019). -/
def scaleFactorOf (p : Pos Sq) (eg : Int) : Int :=
  let strongSide := if 0 < eg then Color.white else Color.black
  let sf0 := p.mscaleFactor strongSide
  if sf0 = SCALE_FACTOR_NORMAL ∧ ¬p.capturesToHand = true then
    if oppositeBishops p then
      if p.npm .white = BishopValueMg ∧ p.npm .black = BishopValueMg then 31 else 46
    else min (40 + 7 * (p.cnt strongSide PAWN : Int)) sf0
  else sf0

/-- `Eval::tempo_value(pos)` (evaluate.cpp lines 1102-1104): the flat tempo
constant, multiplied by five under captures-to-hand variants. -/
def tempoValue (p : Pos Sq) : Int := Tempo * (1 + 4 * btiP (p.capturesToHand = true))

/-- The white-point-of-view interpolated value of the main path of
`value()` (evaluate.cpp lines 1043-1082), before the side-to-move flip. -/
def mainValue (p : Pos Sq) (j : Junk) : Int :=
  let score0 := p.psq + p.imbalance + p.contempt + (p.pawnScore .white - p.pawnScore .black)
  let score1 := score0 + ((piecesPhase p .white).score - (piecesPhase p .black).score)
  let score2 := score1 + (mobFinal p .white - mobFinal p .black).scale
    (1 + btiP (p.capturesToHand = true) + btiP (p.mustCapture = true))
  let score3 := score2 + (kingScore p j .white - kingScore p j .black)
    + (threatsScore p .white - threatsScore p .black)
    + (passedScore p .white - passedScore p .black)
    + (spaceScore p .white - spaceScore p .black)
    + (variantScore p .white - variantScore p .black)
  let score4 := score3 + initiativeScore p score3.eg
  let sf := scaleFactorOf p score4.eg
  let v0 := score4.mg * p.gamePhase +
    Int.tdiv (score4.eg * (PHASE_MIDGAME - p.gamePhase) * sf) SCALE_FACTOR_NORMAL
  Int.tdiv v0 PHASE_MIDGAME

/-- `Evaluation::value()` (evaluate.cpp lines 1027-1095): the specialized
material shortcut when one exists, otherwise the main evaluation flipped to
the side to move's point of view with the tempo bonus added after the
flip. -/
def valueOf (p : Pos Sq) (j : Junk) : Int :=
  if p.specExists = true then p.specEval
  else (if p.sideToMove = Color.white then mainValue p j else -mainValue p j) + tempoValue p

/-- `Eval::evaluate(pos)` (evaluate.cpp lines 1110-1112). -/
def evaluateOf (p : Pos Sq) (j : Junk) : Int := valueOf p j

/-- The accumulated score of `value()` after all evaluation terms up to the
variant bonus (evaluate.cpp lines 1043-1070), as a standalone definition
for the symmetry analysis. -/
def score3Of (p : Pos Sq) (j : Junk) : Score :=
  let score0 := p.psq + p.imbalance + p.contempt + (p.pawnScore .white - p.pawnScore .black)
  let score1 := score0 + ((piecesPhase p .white).score - (piecesPhase p .black).score)
  let score2 := score1 + (mobFinal p .white - mobFinal p .black).scale
    (1 + btiP (p.capturesToHand = true) + btiP (p.mustCapture = true))
  score2 + (kingScore p j .white - kingScore p j .black)
    + (threatsScore p .white - threatsScore p .black)
    + (passedScore p .white - passedScore p .black)
    + (spaceScore p .white - spaceScore p .black)
    + (variantScore p .white - variantScore p .black)

/-- `score3Of` plus the initiative correction (evaluate.cpp line 1073). -/
def score4Of (p : Pos Sq) (j : Junk) : Score :=
  score3Of p j + initiativeScore p (score3Of p j).eg

/-- The tapered interpolation of `value()` (evaluate.cpp lines 1076-1082). -/
def interpOf (p : Pos Sq) (s4 : Score) : Int :=
  Int.tdiv (s4.mg * p.gamePhase +
    Int.tdiv (s4.eg * (PHASE_MIDGAME - p.gamePhase) * scaleFactorOf p s4.eg)
      SCALE_FACTOR_NORMAL) PHASE_MIDGAME


end Defs3

section ClaimDefs

variable {Sq : Type} [DecidableEq Sq] [Fintype Sq]

/-- Modelled from the spec: sanity of the externally maintained non-pawn
material sums (position.cpp, not part of the excerpt, maintains
`nonPawnMaterial` as the summed middlegame values of all non-pawn pieces):
the sum is at least the contribution of the queens alone. -/
def Coherent (p : Pos Sq) : Prop :=
  ∀ c, (p.cnt c QUEEN : Int) * QueenValueMg ≤ p.npm c

/-- The king-danger transform following the claim's words: the mobility
difference is added and clamped unconditionally whenever the danger branch
runs, and the penalty applies whenever the clamped result is positive. -/
def kingDangerTransformClaim (kd : Int) (mobThem mobUs : Score) (score : Score) : Score :=
  let kd2 := max 0 (kd + (mobThem - mobUs).mg)
  if 0 < kd2 then
    score - Score.mk (min (Int.tdiv (kd2 * kd2) 4096) 3000) (Int.tdiv kd2 16)
  else score

/-- The king-danger transform following the amended claim's words: the
whole transform is guarded by positivity of the accumulated danger before
the mobility addition; then the mobility difference is added with a floor
of zero, the middlegame component drops by `min(kd'^2 / 4096, 3000)` and
the endgame component by `kd' / 16` (the drop being zero when the floor
was hit). -/
def kingDangerTransformSpec (kd : Int) (mobThem mobUs : Score) (score : Score) : Score :=
  if 0 < kd then
    let kd2 := max 0 (kd + (mobThem - mobUs).mg)
    Score.mk (score.mg - min (Int.tdiv (kd2 * kd2) 4096) 3000) (score.eg - Int.tdiv kd2 16)
  else score

/-- The drop-variant king-score collapse following the claim's words: both
components become the middlegame value, halved when the variant has no
doubled-shogi-pawn restriction. -/
def dropCollapseClaim (p : Pos Sq) (score : Score) : Score :=
  if p.capturesToHand = true then
    if ¬p.shogiDoubledPawn = true then (Score.mk score.mg score.mg).idiv 2
    else Score.mk score.mg score.mg
  else score

/-- The drop-variant king-score collapse following the amended claim's
words: both components become the middlegame value, divided by three when
the variant has no doubled-shogi-pawn restriction. -/
def dropCollapseSpec (p : Pos Sq) (score : Score) : Score :=
  if p.capturesToHand = true then
    if ¬p.shogiDoubledPawn = true then (Score.mk score.mg score.mg).idiv 3
    else Score.mk score.mg score.mg
  else score

/-- The per-piece attack set following the claim's words: the occupancy of
the sliding-attack lookup excludes the queens of the piece's own color
only (for both bishops and rooks), with the same board clip and pin
restriction as the code. -/
def pieceAttacksClaim (p : Pos Sq) (c : Color) (pt : ℕ) (s : Sq) : BB Sq :=
  let b0 :=
    if pt = BISHOP then p.attacksBBT BISHOP s (bbXor p.pieces (piecesCT p c QUEEN))
    else if pt = ROOK then p.attacksBBT ROOK s (bbXor p.pieces (piecesCT p c QUEEN))
    else (p.attacksFrom c pt s ∩ p.pieces) ∪ (p.movesFrom c pt s \ p.pieces)
  pinRestrict p c s (b0 ∩ p.boardBB)

/-- The passed-pawn halving condition following the claim's words: the
pawn is not passed after one push, or a friendly pawn of the same color
occupies the file in front of it. -/
def passedHalveCondClaim (p : Pos Sq) (c : Color) (s : Sq) : Prop :=
  ¬pawnPassed p c (p.upSq c s) ∨ (piecesCT p c PAWN ∩ p.forwardFile c s).Nonempty

instance (p : Pos Sq) (c : Color) (s : Sq) : Decidable (passedHalveCondClaim p c s) := by
  unfold passedHalveCondClaim; infer_instance

end ClaimDefs

/-- A minimal concrete model instance over a one-square board: everything
empty, all collaborator scores zero, a plain variant with no special
rules.  Used to instantiate hypotheses of the general theorems. -/
def trivialF1 : Pos (Fin 1) :=
  { ksq := fun _ => 0, qsq := fun _ => 0, bsq := fun _ => 0,
    relSqA1 := fun _ => 0, relSqH1 := fun _ => 0 }

/-- A concrete drop-variant instance (captures to hand, no
doubled-shogi-pawn restriction) over a one-square board. -/
def posDropNoSDP : Pos (Fin 1) :=
  { ksq := fun _ => 0, qsq := fun _ => 0, bsq := fun _ => 0,
    relSqA1 := fun _ => 0, relSqH1 := fun _ => 0,
    capturesToHand := true }

/-- A three-square diagonal-ray board model: squares `0 → 1 → 2` along one
diagonal; a slider on square `0` reaches square `1`, and also square `2`
when square `1` is unoccupied.  A white bishop stands on `0` and a black
queen on `1`.  The x-ray occupancy question is whether the bishop sees
through the enemy queen to square `2`. -/
def posXray : Pos (Fin 3) :=
  { ksq := fun _ => 0, qsq := fun _ => 1, bsq := fun _ => 0,
    relSqA1 := fun _ => 2, relSqH1 := fun _ => 2,
    pieces := {0, 1},
    piecesC := fun c => if c = .white then {0} else {1},
    piecesT := fun t => if t = BISHOP then {0} else if t = QUEEN then {1} else ∅,
    attacksBBT := fun _ s occ =>
      if s = 0 then (if (1 : Fin 3) ∈ occ then {1} else {1, 2}) else ∅,
    boardBB := Finset.univ }

/-- A three-square single-file board model: a white pawn on square `0`, a
black pawn directly in front of it on square `1`, square `2` beyond.  The
white pawn is one-push-passed (no enemy pawn in the passed-pawn mask of
square `1`), no white pawn is in front of it, but the black pawn occupies
the file in front of it.  The enemy pawn sits exactly on the push square,
which the assertion of `passed()` (evaluate.cpp line 753) permits. -/
def posPassedCE : Pos (Fin 3) :=
  { ksq := fun _ => 0, qsq := fun _ => 0, bsq := fun _ => 0,
    relSqA1 := fun _ => 0, relSqH1 := fun _ => 0,
    pieces := {0, 1},
    piecesC := fun c => if c = .white then {0} else {1},
    piecesT := fun t => if t = PAWN then {0, 1} else ∅,
    upSq := fun c s => if c = .white then s + 1 else s - 1,
    forwardFile := fun c s =>
      if c = .white then (if s = 0 then {1, 2} else if s = 1 then {2} else ∅) else ∅,
    ppMask := fun c s =>
      if c = .white then (if s = 0 then {1, 2} else if s = 1 then {2} else ∅) else ∅ }

/-- A concrete mandatory-capture instance over a one-square board with a
white king on the single square. -/
def posMustCap : Pos (Fin 1) :=
  { ksq := fun _ => 0, qsq := fun _ => 0, bsq := fun _ => 0,
    relSqA1 := fun _ => 0, relSqH1 := fun _ => 0,
    pieces := {0},
    piecesC := fun c => if c = .white then {0} else ∅,
    piecesT := fun t => if t = 7 then {0} else ∅,
    cnt := fun c t => if c = .white ∧ t = 7 then 1 else 0,
    boardBB := Finset.univ,
    mustCapture := true }

/-- A concrete captures-to-hand instance over a one-square board with a
king of either color (so that `king()` does not return early). -/
def posC10 : Pos (Fin 1) :=
  { ksq := fun _ => 0, qsq := fun _ => 0, bsq := fun _ => 0,
    relSqA1 := fun _ => 0, relSqH1 := fun _ => 0,
    cnt := fun _ t => if t = 7 then 1 else 0,
    capturesToHand := true,
    checkingPermitted := true }

/-- Vertical reflection of a ray direction, the action of the color mirror
on board directions (files preserved, ranks reversed). -/
def Dir.vflip : Dir → Dir
  | .n => .s
  | .ne => .se
  | .e => .e
  | .se => .ne
  | .s => .n
  | .sw => .nw
  | .w => .w
  | .nw => .sw

/-- A concrete two-square instance with a king of each color and a nonzero
thread contempt score, probing the color symmetry of the evaluator. -/
def posC1ce : Pos (Fin 2) :=
  { ksq := fun c => if c = .white then 0 else 1,
    qsq := fun _ => 0, bsq := fun _ => 0,
    relSqA1 := fun _ => 0, relSqH1 := fun _ => 0,
    pieces := {0, 1},
    piecesC := fun c => if c = .white then {0} else {1},
    piecesT := fun t => if t = 7 then {0, 1} else ∅,
    cnt := fun _ t => if t = 7 ∨ t = 0 then 1 else 0,
    boardBB := Finset.univ,
    contempt := ⟨64, 0⟩ }

section MirrorDefs

variable {Sq : Type} [DecidableEq Sq]

/-- The image of a bitboard under a square relabeling. -/
def bbMap (e : Sq ≃ Sq) (b : BB Sq) : BB Sq := b.image e

/-- The color-swapped view of the indeterminate counter memory. -/
def mirJunk (j : Junk) : Junk :=
  { kaw := fun c => j.kaw c.other, kak := fun c => j.kak c.other }

/-- Symmetry facts about the external distance and square-color primitives
of `bitboard.h`/`types.h` (not part of the excerpt): file distance, rank
distance and the opposite-color test are symmetric in their arguments. -/
def MirrorFacts (p : Pos Sq) : Prop :=
  (∀ a b, p.distF a b = p.distF b a) ∧ (∀ a b, p.distR a b = p.distR b a) ∧
    (∀ a b, p.oppColors a b = p.oppColors b a)

/-- Modelled from the spec: the color-mirror operation on positions (the
spec's `mirror_color`; the board model's mutation logic is outside the
excerpt).  Every piece changes color, the board is reflected through the
square relabeling `e` (vertically in the concrete game, so files, ranks
relative to the owner, and the variant configuration are preserved), and
the side to move, the variant rules and the thread state (contempt) are
unchanged.  Each interface field transports accordingly: per-color data
swaps colors, squares and bitboards are relabeled, and the white-viewpoint
collaborator scores (piece-square, imbalance, specialized evaluation)
change sign. -/
def mirrorPos (e : Sq ≃ Sq) (p : Pos Sq) : Pos Sq where
  pieces := bbMap e p.pieces
  piecesC := fun c => bbMap e (p.piecesC c.other)
  piecesT := fun t => bbMap e (p.piecesT t)
  cnt := fun c t => p.cnt c.other t
  squaresL := fun c t => (p.squaresL c.other t).map e
  ksq := fun c => e (p.ksq c.other)
  qsq := fun c => e (p.qsq c.other)
  bsq := fun c => e (p.bsq c.other)
  emptySq := fun s => p.emptySq (e.symm s)
  typeOn := fun s => p.typeOn (e.symm s)
  hasPieceOf := fun c t s => p.hasPieceOf c.other t (e.symm s)
  unpromotedOn := fun s => p.unpromotedOn (e.symm s)
  blockersForKing := fun c => bbMap e (p.blockersForKing c.other)
  sliderBlockers := fun bb s => bbMap e (p.sliderBlockers (bbMap e.symm bb) (e.symm s))
  attacksFrom := fun c t s => bbMap e (p.attacksFrom c.other t (e.symm s))
  movesFrom := fun c t s => bbMap e (p.movesFrom c.other t (e.symm s))
  attacksBB := fun c t s occ => bbMap e (p.attacksBB c.other t (e.symm s) (bbMap e.symm occ))
  attacksBBT := fun t s occ => bbMap e (p.attacksBBT t (e.symm s) (bbMap e.symm occ))
  attackersTo := fun s => bbMap e (p.attackersTo (e.symm s))
  lineBB := fun a b => bbMap e (p.lineBB (e.symm a) (e.symm b))
  pseudoRook := fun c s => bbMap e (p.pseudoRook c.other (e.symm s))
  dist := fun a b => p.dist (e.symm a) (e.symm b)
  distF := fun a b => p.distF (e.symm a) (e.symm b)
  distR := fun a b => p.distR (e.symm a) (e.symm b)
  boardBB := bbMap e p.boardBB
  relRankSq := fun c s => p.relRankSq c.other (e.symm s)
  fileIdx := fun s => p.fileIdx (e.symm s)
  maxFile := p.maxFile
  shiftD := fun c b => bbMap e (p.shiftD c.other (bbMap e.symm b))
  shiftU := fun c b => bbMap e (p.shiftU c.other (bbMap e.symm b))
  shiftW := fun b => bbMap e (p.shiftW (bbMap e.symm b))
  shiftE := fun b => bbMap e (p.shiftE (bbMap e.symm b))
  shiftDir := fun d b => bbMap e (p.shiftDir d.vflip (bbMap e.symm b))
  upSq := fun c s => e (p.upSq c.other (e.symm s))
  pushEW := fun c fl s => e (p.pushEW c.other fl (e.symm s))
  promZone := fun c => bbMap e (p.promZone c.other)
  forwardFile := fun c s => bbMap e (p.forwardFile c.other (e.symm s))
  ppMask := fun c s => bbMap e (p.ppMask c.other (e.symm s))
  halfFor := fun c => bbMap e (p.halfFor c.other)
  flankOf := fun s => bbMap e (p.flankOf (e.symm s))
  campOf := fun c => bbMap e (p.campOf c.other)
  lowRanks := fun c => bbMap e (p.lowRanks c.other)
  outpostRanks := fun c => bbMap e (p.outpostRanks c.other)
  spaceMask := fun c => bbMap e (p.spaceMask c.other)
  trank3 := fun c => bbMap e (p.trank3 c.other)
  centerBB := bbMap e p.centerBB
  queenSideBB := bbMap e p.queenSideBB
  kingSideBB := bbMap e p.kingSideBB
  centerFilesBB := bbMap e p.centerFilesBB
  oppColors := fun a b => p.oppColors (e.symm a) (e.symm b)
  relSqA1 := fun c => e (p.relSqA1 c.other)
  relSqH1 := fun c => e (p.relSqH1 c.other)
  pawnAttacks := fun c => bbMap e (p.pawnAttacks c.other)
  pawnAttacksSpan := fun c => bbMap e (p.pawnAttacksSpan c.other)
  kingSafety := fun c s => p.kingSafety c.other (e.symm s)
  semiopen := fun c f => p.semiopen c.other f
  pawnsOnSameColor := fun c s => p.pawnsOnSameColor c.other (e.symm s)
  weakUnopposed := fun c => p.weakUnopposed c.other
  openFiles := p.openFiles
  pawnAsymmetry := p.pawnAsymmetry
  passedPawns := fun c => bbMap e (p.passedPawns c.other)
  pawnScore := fun c => p.pawnScore c.other
  imbalance := -p.imbalance
  gamePhase := p.gamePhase
  specExists := p.specExists
  specEval := -p.specEval
  mscaleFactor := fun c => p.mscaleFactor c.other
  contempt := p.contempt
  psq := -p.psq
  npm := fun c => p.npm c.other
  sideToMove := p.sideToMove
  pawnAttacksBBF := fun c b => bbMap e (p.pawnAttacksBBF c.other (bbMap e.symm b))
  chess960 := p.chess960
  mustCapture := p.mustCapture
  capturesToHand := p.capturesToHand
  pieceDrops := p.pieceDrops
  checkingPermitted := p.checkingPermitted
  shogiDoubledPawn := p.shogiDoubledPawn
  maxCheckCount := p.maxCheckCount
  connectN := p.connectN
  extinctionVal := p.extinctionVal
  canCastle := fun c => p.canCastle c.other
  checksGiven := fun c => p.checksGiven c.other
  ctfPiece := p.ctfPiece
  ctfTargets := fun c => bbMap e (p.ctfTargets c.other)
  promotedPieceType := p.promotedPieceType
  promotionPieceTypes := p.promotionPieceTypes
  pieceTypesL := p.pieceTypesL
  kingPT := p.kingPT
  shogiPawnPT := p.shogiPawnPT
  dropRegion := fun c t => bbMap e (p.dropRegion c.other t)
  countInHand := fun c t => p.countInHand c.other t

/-- The transport of the per-piece-pass state along the square relabeling:
bitboards are mapped, the numeric counters and the color-relative scores
are unchanged. -/
def mapAcc (e : Sq ≃ Sq) (acc : PieceAcc Sq) : PieceAcc Sq :=
  { tbl := fun t => bbMap e (acc.tbl t),
    atk2 := bbMap e acc.atk2,
    ctr := acc.ctr,
    mob := acc.mob,
    score := acc.score }

end MirrorDefs

/-! The remainder of the file consists of theorems only. -/

@[simp] theorem Color.other_other (c : Color) : c.other.other = c := by
  cases c <;> rfl

@[simp] theorem Color.other_white : Color.white.other = Color.black := rfl

@[simp] theorem Color.other_black : Color.black.other = Color.white := rfl

@[simp] theorem Score.add_mg (a b : Score) : (a + b).mg = a.mg + b.mg := rfl

@[simp] theorem Score.add_eg (a b : Score) : (a + b).eg = a.eg + b.eg := rfl

@[simp] theorem Score.sub_mg (a b : Score) : (a - b).mg = a.mg - b.mg := rfl

@[simp] theorem Score.sub_eg (a b : Score) : (a - b).eg = a.eg - b.eg := rfl

@[simp] theorem Score.neg_mg (a : Score) : (-a).mg = -a.mg := rfl

@[simp] theorem Score.neg_eg (a : Score) : (-a).eg = -a.eg := rfl

@[simp] theorem Score.zero_mg : (0 : Score).mg = 0 := rfl

@[simp] theorem Score.zero_eg : (0 : Score).eg = 0 := rfl

@[simp] theorem Score.scale_mg (a : Score) (n : Int) : (a.scale n).mg = a.mg * n := rfl

@[simp] theorem Score.scale_eg (a : Score) (n : Int) : (a.scale n).eg = a.eg * n := rfl

theorem Score.ext_mk (a : Score) : a = ⟨a.mg, a.eg⟩ := rfl

theorem Score.eq_of_parts {a b : Score} (h1 : a.mg = b.mg) (h2 : a.eg = b.eg) : a = b := by
  cases a; cases b; cases h1; cases h2; rfl

theorem Score.neg_scale (a : Score) (n : Int) : (-a).scale n = -(a.scale n) :=
  Score.eq_of_parts (by simp) (by simp)

theorem Score.neg_idiv (a : Score) (n : Int) : (-a).idiv n = -(a.idiv n) :=
  Score.eq_of_parts (by simp only [Score.idiv, Score.neg_mg, Int.neg_tdiv])
    (by simp only [Score.idiv, Score.neg_eg, Int.neg_tdiv])

theorem Score.neg_add (a b : Score) : -(a + b) = -a + -b :=
  Score.eq_of_parts (by simp; ring) (by simp; ring)

theorem Score.neg_sub_dist (a b : Score) : -(a - b) = -a - -b :=
  Score.eq_of_parts (by simp; ring) (by simp; ring)

@[simp] theorem btiP_true (p : Prop) [Decidable p] (h : p) : btiP p = 1 := by
  simp [btiP, h]

@[simp] theorem btiP_false (p : Prop) [Decidable p] (h : ¬p) : btiP p = 0 := by
  simp [btiP, h]

section HelperLemmas

variable {Sq : Type} [DecidableEq Sq]

theorem bbXor_of_subset {a b : BB Sq} (h : b ⊆ a) : bbXor a b = a \ b := by
  unfold bbXor
  rw [Finset.sdiff_eq_empty_iff_subset.mpr h, Finset.union_empty]

theorem addCtr_zero_right (a : Counters) : addCtr a {} = a := by
  cases a; simp [addCtr]

variable [Fintype Sq]

theorem pieceStep_ctr_of_ring_empty (p : Pos Sq) (c : Color) (pt : ℕ)
    (h : kingRingOf p c.other = ∅) (acc : PieceAcc Sq) (s : Sq) :
    (pieceStep p c pt acc s).ctr = acc.ctr := by
  unfold pieceStep
  simp [h]

theorem foldl_pieceStep_ctr (p : Pos Sq) (c : Color) (pt : ℕ)
    (h : kingRingOf p c.other = ∅) (l : List Sq) (acc : PieceAcc Sq) :
    (l.foldl (pieceStep p c pt) acc).ctr = acc.ctr := by
  induction l generalizing acc with
  | nil => rfl
  | cons x xs ih => rw [List.foldl_cons, ih, pieceStep_ctr_of_ring_empty p c pt h]

theorem piecesRun_ctr_of_ring_empty (p : Pos Sq) (c : Color)
    (h : kingRingOf p c.other = ∅) (acc : PieceAcc Sq) (pt : ℕ) :
    (piecesRun p c acc pt).ctr = acc.ctr := by
  unfold piecesRun
  rw [foldl_pieceStep_ctr p c pt h]

theorem piecesPhase_ctr_of_ring_empty (p : Pos Sq) (c : Color)
    (h : kingRingOf p c.other = ∅) : (piecesPhase p c).ctr = {} := by
  unfold piecesPhase
  have : ∀ (l : List ℕ) (acc : PieceAcc Sq),
      (l.foldl (piecesRun p c) acc).ctr = acc.ctr := by
    intro l
    induction l with
    | nil => intro acc; rfl
    | cons x xs ih => intro acc; rw [List.foldl_cons, ih, piecesRun_ctr_of_ring_empty p c h]
  rw [this]
  rfl

theorem handCalc_ctr_of_ring_empty (p : Pos Sq) (c : Color)
    (h : kingRingOf p c.other = ∅) (pt : ℕ) : (handCalc p c pt).1 = {} := by
  unfold handCalc
  simp [h]
  split <;> rfl

theorem handDeltas_ctr_of_ring_empty (p : Pos Sq) (c : Color)
    (h : kingRingOf p c.other = ∅) : (handDeltas p c).1 = {} := by
  unfold handDeltas
  by_cases hd : p.pieceDrops = true
  · simp only [if_pos hd]
    have main : ∀ (l : List ℕ) (acc : Counters × Score), acc.1 = {} →
        ((l.map (handCalc p c)).foldl (fun a x => (addCtr a.1 x.1, a.2 + x.2)) acc).1 = {} := by
      intro l
      induction l with
      | nil => intro acc ha; exact ha
      | cons x xs ih =>
          intro acc ha
          rw [List.map_cons, List.foldl_cons]
          exact ih _ (by rw [ha, handCalc_ctr_of_ring_empty p c h]; rfl)
    exact main _ _ rfl
  · simp [hd]

end HelperLemmas

/-- C2, counterexample: when the accumulated king danger is not positive
(here zero) but the attacker's mobility advantage is, the code leaves the
score untouched while the claim's reading (mobility added first,
unconditionally) would subtract a penalty. -/
theorem c2_claim_false :
    kingDangerTransform 0 ⟨64, 0⟩ 0 0 ≠ kingDangerTransformClaim 0 ⟨64, 0⟩ 0 0 := by
  decide

/-- C2 (amended): the transform of `king()` runs only when the accumulated
`kingDanger` is positive before the mobility addition; in that case the
middlegame mobility difference is added with a floor of zero and the score
drops by exactly `min(kd'^2 / 4096, 3000)` in the middlegame and
`kd' / 16` in the endgame; otherwise the score is unchanged. -/
theorem c2_amended (kd : Int) (mobThem mobUs score : Score) :
    kingDangerTransform kd mobThem mobUs score =
      kingDangerTransformSpec kd mobThem mobUs score := by
  unfold kingDangerTransform kingDangerTransformSpec
  by_cases h : 0 < kd
  · simp only [if_pos h]
    rfl
  · simp only [if_neg h]

/-- C3, counterexample: for a captures-to-hand variant with no
doubled-shogi-pawn restriction the code divides the collapsed value by
three, not by two as the claim states: at a middlegame value of `6` the
code yields `(2, 2)` while the claim predicts `(3, 3)`. -/
theorem c3_claim_false :
    dropCollapse posDropNoSDP ⟨6, 0⟩ ≠ dropCollapseClaim posDropNoSDP ⟨6, 0⟩ := by
  decide

/-- C3 (amended): for captures-to-hand variants the king score is collapsed
to a phase-independent value, both components equal to the middlegame
value, divided by three (not two) when the variant has no
doubled-shogi-pawn restriction. -/
theorem c3_amended {Sq : Type} [DecidableEq Sq] [Fintype Sq] (p : Pos Sq) (score : Score) :
    dropCollapse p score = dropCollapseSpec p score ∧
      (p.capturesToHand = true →
        (dropCollapse p score).mg = (dropCollapse p score).eg) := by
  constructor
  · unfold dropCollapse dropCollapseSpec
    by_cases hc : p.capturesToHand = true
    · by_cases hs : p.shogiDoubledPawn = true
      · simp [hc, hs, Score.idiv, Int.tdiv_one]
      · simp [hc, hs]
    · simp [hc]
  · intro hc
    unfold dropCollapse
    simp [hc, Score.idiv]

/-- C3 witness. -/
theorem c3_witness :
    posDropNoSDP.capturesToHand = true ∧
      (dropCollapse posDropNoSDP ⟨6, 0⟩).mg = (dropCollapse posDropNoSDP ⟨6, 0⟩).eg :=
  ⟨rfl, (c3_amended posDropNoSDP ⟨6, 0⟩).2 rfl⟩

/-- C4, counterexample: under a captures-to-hand (drop) variant the tempo
bonus is `Tempo * 5`, not tripled as the claim's gloss says. -/
theorem c4_claim_false : tempoValue posDropNoSDP ≠ 3 * Tempo := by decide

/-- C4 (amended): on the non-specialized path, `value()` adds after the
side-to-move sign flip a flat tempo bonus equal to the fixed constant times
`1 + 4 * captures-to-hand flag`, i.e. quintupled (not tripled) under drop
variants and flat otherwise. -/
theorem c4_amended {Sq : Type} [DecidableEq Sq] [Fintype Sq] (p : Pos Sq) (j : Junk)
    (h : p.specExists = false) :
    evaluateOf p j =
        (if p.sideToMove = Color.white then mainValue p j else -mainValue p j) + tempoValue p
      ∧ tempoValue p = Tempo * (1 + 4 * btiP (p.capturesToHand = true))
      ∧ (p.capturesToHand = true → tempoValue p = 5 * Tempo)
      ∧ (p.capturesToHand = false → tempoValue p = Tempo) := by
  refine ⟨?_, rfl, ?_, ?_⟩
  · unfold evaluateOf valueOf
    simp [h]
  · intro hc
    unfold tempoValue
    rw [btiP_true _ hc]
    ring
  · intro hc
    unfold tempoValue
    rw [btiP_false _ (by simp [hc])]
    norm_num

/-- C4 witness. -/
theorem c4_witness :
    posDropNoSDP.specExists = false ∧ tempoValue posDropNoSDP = 5 * Tempo :=
  ⟨rfl, (c4_amended posDropNoSDP {} rfl).2.2.1 rfl⟩

/-- C5, counterexample: on the three-square diagonal model the code's
bishop attack set sees through the enemy (black) queen to the square
behind it, because the occupancy of the sliding lookup excludes the queens
of both colors; under the claim's reading (own queens only) the bishop
would stop at the enemy queen.  The two computed attack sets differ. -/
theorem c5_claim_false :
    pieceAttacks posXray .white BISHOP 0 ≠ pieceAttacksClaim posXray .white BISHOP 0 := by
  decide

/-- C5 (amended): in `pieces()` the sliding-attack occupancy for a bishop
excludes the queens of both colors, and for a rook the queens of both
colors together with the moving side's own rooks; a piece that is a
sliding blocker pinned to its own king keeps only the line through king
and piece.  Stated with the symmetric differences resolved to set
differences under the board-model containment facts. -/
theorem c5_amended {Sq : Type} [DecidableEq Sq] [Fintype Sq] (p : Pos Sq) (c : Color) (s : Sq)
    (hq : p.piecesT QUEEN ⊆ p.pieces)
    (hr : piecesCT p c ROOK ⊆ p.pieces)
    (hrq : piecesCT p c ROOK ∩ p.piecesT QUEEN = ∅) :
    pieceAttacks p c BISHOP s =
        pinRestrict p c s (p.attacksBBT BISHOP s (p.pieces \ p.piecesT QUEEN) ∩ p.boardBB)
      ∧ pieceAttacks p c ROOK s =
        pinRestrict p c s
          (p.attacksBBT ROOK s ((p.pieces \ p.piecesT QUEEN) \ piecesCT p c ROOK) ∩ p.boardBB) := by
  have hx : bbXor p.pieces (p.piecesT QUEEN) = p.pieces \ p.piecesT QUEEN :=
    bbXor_of_subset hq
  constructor
  · unfold pieceAttacks
    rw [if_pos rfl, hx]
  · unfold pieceAttacks
    have h2 : piecesCT p c ROOK ⊆ p.pieces \ p.piecesT QUEEN :=
      Finset.subset_sdiff.mpr ⟨hr, Finset.disjoint_left.mpr (fun a ha hb => by
        have : a ∈ piecesCT p c ROOK ∩ p.piecesT QUEEN := Finset.mem_inter.mpr ⟨ha, hb⟩
        simp [hrq] at this)⟩
    rw [if_neg (by decide), if_pos rfl, hx, bbXor_of_subset h2]

/-- C5 witness. -/
theorem c5_witness :
    pieceAttacks posXray .white BISHOP 0 =
      pinRestrict posXray .white 0
        (posXray.attacksBBT BISHOP 0 (posXray.pieces \ posXray.piecesT QUEEN) ∩
          posXray.boardBB) :=
  (c5_amended posXray .white 0 (by decide) (by decide) (by decide)).1

/-- C6, counterexample: on the three-square single-file model the white
pawn on square `0` is one-push-passed and has no friendly pawn in front of
it, yet the code halves its bonus because the enemy pawn on the push
square occupies the file in front; the claim's friendly-pawn condition
does not hold, so the claim predicts no halving. -/
theorem c6_claim_false :
    passedHalveCond posPassedCE .white 0 ∧ ¬passedHalveCondClaim posPassedCE .white 0 := by
  decide

/-- C6 (amended): the per-pawn bonus of `passed()` is halved exactly when
the pawn would not be passed after one push (an enemy pawn remains in the
passed-pawn mask of the push square) or a pawn of either color occupies
some square of the file in front of it. -/
theorem c6_amended {Sq : Type} [DecidableEq Sq] [Fintype Sq] (p : Pos Sq) (c : Color) (s : Sq) :
    passedHalveCond p c s ↔
      (¬(piecesCT p c.other PAWN ∩ p.ppMask c (p.upSq c s) = ∅) ∨
        ∃ x ∈ p.piecesT PAWN, x ∈ p.forwardFile c s) := by
  unfold passedHalveCond pawnPassed
  constructor
  · rintro (h | ⟨x, hx⟩)
    · exact Or.inl h
    · exact Or.inr ⟨x, (Finset.mem_inter.mp hx).1, (Finset.mem_inter.mp hx).2⟩
  · rintro (h | ⟨x, h1, h2⟩)
    · exact Or.inl h
    · exact Or.inr ⟨x, Finset.mem_inter.mpr ⟨h1, h2⟩⟩

/-- C7, counterexample: under a mandatory-capture variant the code assigns
the whole board as mobility area, so the king square is in the mobility
area of its color, contradicting the claim's extension of the invariant to
such variants. -/
theorem c7_claim_false :
    ¬(mobilityAreaOf posMustCap .white ∩
        piecesC2T posMustCap .white posMustCap.kingPT QUEEN = ∅) := by
  decide

/-- C7 (amended): for every position of a variant without mandatory
capture, the mobility area of a color contains no square of that color's
blocked-or-low pawns and no square occupied by its king or queen; under
mandatory capture the code instead uses the full board. -/
theorem c7_amended {Sq : Type} [DecidableEq Sq] [Fintype Sq] (p : Pos Sq) (c : Color)
    (h : p.mustCapture = false) :
    mobilityAreaOf p c ∩ blockedLowPawns p c = ∅
      ∧ mobilityAreaOf p c ∩ piecesC2T p c p.kingPT QUEEN = ∅
      ∧ (∀ q : Pos Sq, q.mustCapture = true → mobilityAreaOf q c = Finset.univ) := by
  refine ⟨?_, ?_, ?_⟩
  · unfold mobilityAreaOf
    simp only [h, Bool.false_eq_true, if_false]
    ext x
    simp only [Finset.mem_inter, Finset.mem_compl, Finset.mem_union, Finset.not_mem_empty,
      iff_false, not_and]
    intro hx
    exact fun hb => hx (Or.inl (Or.inl (Or.inl hb)))
  · unfold mobilityAreaOf
    simp only [h, Bool.false_eq_true, if_false]
    ext x
    simp only [Finset.mem_inter, Finset.mem_compl, Finset.mem_union, Finset.not_mem_empty,
      iff_false, not_and]
    intro hx
    exact fun hb => hx (Or.inl (Or.inl (Or.inr hb)))
  · intro q hq
    unfold mobilityAreaOf
    simp [hq]

/-- C7 witness. -/
theorem c7_witness :
    trivialF1.mustCapture = false ∧
      mobilityAreaOf trivialF1 .white ∩ blockedLowPawns trivialF1 .white = ∅ :=
  ⟨rfl, (c7_amended trivialF1 .white rfl).1⟩

/-- C8: for a position containing only kings and pawns of a variant that
does not return captures to hand, the danger branch guard of `king()` is
false whenever the enemy attacker count is at most the queen-adjusted
threshold `1 - (enemy queen count)`; and in general the guard holds
exactly when the count exceeds that threshold or the variant returns
captures to hand. -/
theorem c8_theorem {Sq : Type} [DecidableEq Sq] [Fintype Sq] (p : Pos Sq) (them : Color)
    (kac : Int)
    (honly : ∀ c t, t ≠ PAWN → t ≠ p.kingPT → p.cnt c t = 0)
    (hkq : p.kingPT ≠ QUEEN)
    (hnd : p.capturesToHand = false)
    (hle : kac ≤ 1 - (p.cnt them QUEEN : Int)) :
    ¬dangerGuard p them kac
      ∧ (∀ k2 : Int, dangerGuard p them k2 ↔
          (1 - (p.cnt them QUEEN : Int) < k2 ∨ p.capturesToHand = true)) := by
  have hq0 : p.cnt them QUEEN = 0 := honly them QUEEN (by decide) (fun h => hkq h.symm)
  constructor
  · intro hg
    rcases hg with hlt | hc
    · omega
    · rw [hnd] at hc
      exact Bool.false_ne_true hc
  · intro k2
    exact Iff.rfl

/-- C8 witness. -/
theorem c8_witness : ¬dangerGuard trivialF1 .white 0 :=
  (c8_theorem trivialF1 .white 0 (fun _ _ _ _ => rfl) (by decide) rfl (by decide)).1

/-- C9: the initiative correction has zero middlegame component, vanishes
for extinction, captures-to-hand and connect-n variants, and its endgame
component can never flip the sign of the endgame score it corrects. -/
theorem c9_theorem {Sq : Type} [DecidableEq Sq] [Fintype Sq] (p : Pos Sq) (eg : Int) :
    (initiativeScore p eg).mg = 0
      ∧ (p.extinctionVal ≠ VALUE_NONE ∨ p.capturesToHand = true ∨ p.connectN ≠ 0 →
          initiativeScore p eg = 0)
      ∧ (0 < eg → 0 ≤ eg + (initiativeScore p eg).eg)
      ∧ (eg < 0 → eg + (initiativeScore p eg).eg ≤ 0)
      ∧ (eg = 0 → (initiativeScore p eg).eg = 0) := by
  have hpos : ∀ C : Int, 0 < eg → 0 ≤ eg + initiativeRaw C eg := by
    intro C h
    unfold initiativeRaw
    rw [btiP_true _ h, btiP_false _ (by omega)]
    have h3 := le_max_right C (-|eg|)
    have h4 : |eg| = eg := abs_of_pos h
    linarith
  have hneg : ∀ C : Int, eg < 0 → eg + initiativeRaw C eg ≤ 0 := by
    intro C h
    unfold initiativeRaw
    rw [btiP_false _ (by omega), btiP_true _ h]
    have h3 := le_max_right C (-|eg|)
    have h4 : |eg| = -eg := abs_of_neg h
    linarith
  have hzero : ∀ C : Int, eg = 0 → initiativeRaw C eg = 0 := by
    intro C h
    unfold initiativeRaw
    rw [h]
    rw [btiP_false _ (by omega)]
    ring
  unfold initiativeScore
  by_cases hv : p.extinctionVal ≠ VALUE_NONE ∨ p.capturesToHand = true ∨ p.connectN ≠ 0
  · rw [if_pos hv]
    have hzeg : (0 : Score).eg = 0 := rfl
    exact ⟨rfl, fun _ => rfl, fun h => by rw [hzeg]; omega, fun h => by rw [hzeg]; omega,
      fun _ => hzeg⟩
  · rw [if_neg hv]
    exact ⟨rfl, fun h => absurd h hv, fun h => hpos _ h, fun h => hneg _ h,
      fun h => hzero _ h⟩

/-- C9 witness. -/
theorem c9_witness : (0 : Int) < 5 ∧ 0 ≤ 5 + (initiativeScore trivialF1 5).eg :=
  ⟨by decide, (c9_theorem trivialF1 5).2.2.1 (by decide)⟩

theorem ctrFinal_kac_junk_indep {Sq : Type} [DecidableEq Sq] [Fintype Sq] (p : Pos Sq)
    (j j' : Junk) (c : Color) : (ctrFinal p j c).kac = (ctrFinal p j' c).kac := by
  unfold ctrFinal countersInit
  by_cases hic : initCondition p c.other <;> simp [hic, addCtr]

theorem ctrFinal_junk_indep {Sq : Type} [DecidableEq Sq] [Fintype Sq] (p : Pos Sq)
    (us : Color) (j j' : Junk) (hic : initCondition p us) :
    ctrFinal p j us.other = ctrFinal p j' us.other := by
  unfold ctrFinal countersInit
  rw [Color.other_other]
  simp [hic]

theorem guard_implies_initCond {Sq : Type} [DecidableEq Sq] [Fintype Sq] (p : Pos Sq)
    (us : Color) (j : Junk)
    (hking : p.cnt us p.kingPT ≠ 0)
    (hcoh : Coherent p)
    (hguard : dangerGuard p us.other ((ctrFinal p j us.other).kac)) :
    initCondition p us := by
  by_cases hic : initCondition p us
  · exact hic
  · exfalso
    have hcth : ¬p.capturesToHand = true := fun hc => hic (Or.inr hc)
    have hring : kingRingOf p us = ∅ := by unfold kingRingOf; rw [if_neg hic]
    have hring2 : kingRingOf p (us.other).other = ∅ := by
      rw [Color.other_other]; exact hring
    have hkac : (ctrFinal p j us.other).kac = 0 := by
      unfold ctrFinal countersInit
      rw [Color.other_other, if_neg hic]
      rw [addCtr, addCtr]
      simp [piecesPhase_ctr_of_ring_empty p us.other hring2,
        handDeltas_ctr_of_ring_empty p us.other hring2]
    rw [hkac] at hguard
    rcases hguard with hlt | hc
    · have hq : (2 : Int) ≤ (p.cnt us.other QUEEN : Int) := by omega
      have hnpm := hcoh us.other
      apply hic
      left
      refine ⟨hking, ?_⟩
      have hval : QueenValueMg = 2529 := rfl
      have hrk : RookValueMg + KnightValueMg = 2071 := rfl
      rw [hrk]
      rw [hval] at hnpm
      nlinarith
    · exact hcth hc

/-- C10: whenever the danger-branch guard of `king()` holds for the side
under evaluation (which has a king, or `king()` would have returned
early), the king-safety initialization condition of `initialize()` held in
the same evaluation, so the attacker weight and attack counters read
inside the branch were explicitly zeroed and accumulated, independently of
the indeterminate memory contents they would otherwise hold. -/
theorem c10_theorem {Sq : Type} [DecidableEq Sq] [Fintype Sq] (p : Pos Sq) (us : Color)
    (j j' : Junk)
    (hking : p.cnt us p.kingPT ≠ 0)
    (hcoh : Coherent p)
    (hguard : dangerGuard p us.other ((ctrFinal p j us.other).kac)) :
    initCondition p us ∧ ctrFinal p j us.other = ctrFinal p j' us.other := by
  have hic := guard_implies_initCond p us j hking hcoh hguard
  exact ⟨hic, ctrFinal_junk_indep p us j j' hic⟩

/-- C10 witness. -/
theorem c10_witness :
    initCondition posC10 Color.white ∧
      ctrFinal posC10 ⟨fun _ => 3, fun _ => 4⟩ Color.black =
        ctrFinal posC10 {} Color.black :=
  c10_theorem posC10 .white ⟨fun _ => 3, fun _ => 4⟩ {} (by decide)
    (fun c => by cases c <;> decide) (Or.inr rfl)

section BBMapLemmas

variable {Sq : Type} [DecidableEq Sq]

@[simp] theorem mem_bbMap {e : Sq ≃ Sq} {b : BB Sq} {x : Sq} :
    x ∈ bbMap e b ↔ e.symm x ∈ b := by
  unfold bbMap
  constructor
  · intro h
    rcases Finset.mem_image.mp h with ⟨y, hy, rfl⟩
    simpa using hy
  · intro h
    exact Finset.mem_image.mpr ⟨e.symm x, h, by simp⟩

@[simp] theorem bbMap_empty (e : Sq ≃ Sq) : bbMap e (∅ : BB Sq) = ∅ := rfl

@[simp] theorem bbMap_union (e : Sq ≃ Sq) (a b : BB Sq) :
    bbMap e (a ∪ b) = bbMap e a ∪ bbMap e b := by
  ext x; simp

@[simp] theorem bbMap_inter (e : Sq ≃ Sq) (a b : BB Sq) :
    bbMap e (a ∩ b) = bbMap e a ∩ bbMap e b := by
  ext x; simp

@[simp] theorem bbMap_sdiff (e : Sq ≃ Sq) (a b : BB Sq) :
    bbMap e (a \ b) = bbMap e a \ bbMap e b := by
  ext x; simp

@[simp] theorem bbMap_singleton (e : Sq ≃ Sq) (s : Sq) :
    bbMap e ({s} : BB Sq) = {e s} := by
  ext x
  simp only [mem_bbMap, Finset.mem_singleton]
  exact ⟨fun h => by rw [← h]; simp, fun h => by rw [h]; simp⟩

@[simp] theorem bbMap_bbMap_symm (e : Sq ≃ Sq) (b : BB Sq) :
    bbMap e (bbMap e.symm b) = b := by
  ext x; simp

@[simp] theorem bbMap_symm_bbMap (e : Sq ≃ Sq) (b : BB Sq) :
    bbMap e.symm (bbMap e b) = b := by
  ext x; simp

@[simp] theorem card_bbMap (e : Sq ≃ Sq) (b : BB Sq) : (bbMap e b).card = b.card :=
  Finset.card_image_of_injective _ e.injective

@[simp] theorem bbMap_nonempty (e : Sq ≃ Sq) (b : BB Sq) :
    (bbMap e b).Nonempty ↔ b.Nonempty := by
  constructor
  · rintro ⟨x, hx⟩
    exact ⟨e.symm x, mem_bbMap.mp hx⟩
  · rintro ⟨x, hx⟩
    exact ⟨e x, by simp [hx]⟩

@[simp] theorem bbMap_eq_empty (e : Sq ≃ Sq) (b : BB Sq) :
    bbMap e b = ∅ ↔ b = ∅ :=
  Finset.image_eq_empty

@[simp] theorem mem_bbMap_apply (e : Sq ≃ Sq) (b : BB Sq) (s : Sq) :
    e s ∈ bbMap e b ↔ s ∈ b := by
  simp

theorem bbMap_inj (e : Sq ≃ Sq) {a b : BB Sq} : bbMap e a = bbMap e b ↔ a = b := by
  constructor
  · intro h
    have := congrArg (bbMap e.symm) h
    simpa using this
  · intro h; rw [h]

@[simp] theorem bbMap_bbXor (e : Sq ≃ Sq) (a b : BB Sq) :
    bbMap e (bbXor a b) = bbXor (bbMap e a) (bbMap e b) := by
  unfold bbXor
  simp

theorem bbMap_biUnion (e : Sq ≃ Sq) (s : BB Sq) (f : Sq → BB Sq) :
    bbMap e (s.biUnion f) = (bbMap e s).biUnion (fun x => bbMap e (f (e.symm x))) := by
  ext x
  simp only [mem_bbMap, Finset.mem_biUnion]
  constructor
  · rintro ⟨a, ha, hx⟩
    exact ⟨e a, by simpa using ha, by simpa using hx⟩
  · rintro ⟨a, ha, hx⟩
    exact ⟨e.symm a, ha, hx⟩

theorem sum_bbMap {M : Type} [AddCommMonoid M] (e : Sq ≃ Sq) (b : BB Sq) (f : Sq → M) :
    (bbMap e b).sum f = b.sum (fun x => f (e x)) :=
  Finset.sum_image (fun _ _ _ _ h => e.injective h)

variable [Fintype Sq]

@[simp] theorem bbMap_univ (e : Sq ≃ Sq) : bbMap e (Finset.univ : BB Sq) = Finset.univ := by
  ext x; simp

@[simp] theorem bbMap_compl (e : Sq ≃ Sq) (b : BB Sq) : bbMap e bᶜ = (bbMap e b)ᶜ := by
  ext x; simp

end BBMapLemmas

section MirrorProj

variable {Sq : Type} [DecidableEq Sq]

@[simp] theorem mirror_pieces (e : Sq ≃ Sq) (p : Pos Sq) :
    (mirrorPos e p).pieces = bbMap e p.pieces := rfl

@[simp] theorem mirror_piecesC (e : Sq ≃ Sq) (p : Pos Sq) (c : Color) :
    (mirrorPos e p).piecesC c = bbMap e (p.piecesC c.other) := rfl

@[simp] theorem mirror_piecesT (e : Sq ≃ Sq) (p : Pos Sq) (t : ℕ) :
    (mirrorPos e p).piecesT t = bbMap e (p.piecesT t) := rfl

@[simp] theorem mirror_cnt (e : Sq ≃ Sq) (p : Pos Sq) (c : Color) (t : ℕ) :
    (mirrorPos e p).cnt c t = p.cnt c.other t := rfl

@[simp] theorem mirror_squaresL (e : Sq ≃ Sq) (p : Pos Sq) (c : Color) (t : ℕ) :
    (mirrorPos e p).squaresL c t = (p.squaresL c.other t).map e := rfl

@[simp] theorem mirror_ksq (e : Sq ≃ Sq) (p : Pos Sq) (c : Color) :
    (mirrorPos e p).ksq c = e (p.ksq c.other) := rfl

@[simp] theorem mirror_qsq (e : Sq ≃ Sq) (p : Pos Sq) (c : Color) :
    (mirrorPos e p).qsq c = e (p.qsq c.other) := rfl

@[simp] theorem mirror_bsq (e : Sq ≃ Sq) (p : Pos Sq) (c : Color) :
    (mirrorPos e p).bsq c = e (p.bsq c.other) := rfl

@[simp] theorem mirror_emptySq (e : Sq ≃ Sq) (p : Pos Sq) (s : Sq) :
    (mirrorPos e p).emptySq s = p.emptySq (e.symm s) := rfl

@[simp] theorem mirror_typeOn (e : Sq ≃ Sq) (p : Pos Sq) (s : Sq) :
    (mirrorPos e p).typeOn s = p.typeOn (e.symm s) := rfl

@[simp] theorem mirror_hasPieceOf (e : Sq ≃ Sq) (p : Pos Sq) (c : Color) (t : ℕ) (s : Sq) :
    (mirrorPos e p).hasPieceOf c t s = p.hasPieceOf c.other t (e.symm s) := rfl

@[simp] theorem mirror_unpromotedOn (e : Sq ≃ Sq) (p : Pos Sq) (s : Sq) :
    (mirrorPos e p).unpromotedOn s = p.unpromotedOn (e.symm s) := rfl

@[simp] theorem mirror_blockersForKing (e : Sq ≃ Sq) (p : Pos Sq) (c : Color) :
    (mirrorPos e p).blockersForKing c = bbMap e (p.blockersForKing c.other) := rfl

@[simp] theorem mirror_sliderBlockers (e : Sq ≃ Sq) (p : Pos Sq) (bb : BB Sq) (s : Sq) :
    (mirrorPos e p).sliderBlockers bb s = bbMap e (p.sliderBlockers (bbMap e.symm bb) (e.symm s)) := rfl

@[simp] theorem mirror_attacksFrom (e : Sq ≃ Sq) (p : Pos Sq) (c : Color) (t : ℕ) (s : Sq) :
    (mirrorPos e p).attacksFrom c t s = bbMap e (p.attacksFrom c.other t (e.symm s)) := rfl

@[simp] theorem mirror_movesFrom (e : Sq ≃ Sq) (p : Pos Sq) (c : Color) (t : ℕ) (s : Sq) :
    (mirrorPos e p).movesFrom c t s = bbMap e (p.movesFrom c.other t (e.symm s)) := rfl

@[simp] theorem mirror_attacksBB (e : Sq ≃ Sq) (p : Pos Sq) (c : Color) (t : ℕ) (s : Sq) (occ : BB Sq) :
    (mirrorPos e p).attacksBB c t s occ = bbMap e (p.attacksBB c.other t (e.symm s) (bbMap e.symm occ)) := rfl

@[simp] theorem mirror_attacksBBT (e : Sq ≃ Sq) (p : Pos Sq) (t : ℕ) (s : Sq) (occ : BB Sq) :
    (mirrorPos e p).attacksBBT t s occ = bbMap e (p.attacksBBT t (e.symm s) (bbMap e.symm occ)) := rfl

@[simp] theorem mirror_attackersTo (e : Sq ≃ Sq) (p : Pos Sq) (s : Sq) :
    (mirrorPos e p).attackersTo s = bbMap e (p.attackersTo (e.symm s)) := rfl

@[simp] theorem mirror_lineBB (e : Sq ≃ Sq) (p : Pos Sq) (a b : Sq) :
    (mirrorPos e p).lineBB a b = bbMap e (p.lineBB (e.symm a) (e.symm b)) := rfl

@[simp] theorem mirror_pseudoRook (e : Sq ≃ Sq) (p : Pos Sq) (c : Color) (s : Sq) :
    (mirrorPos e p).pseudoRook c s = bbMap e (p.pseudoRook c.other (e.symm s)) := rfl

@[simp] theorem mirror_dist (e : Sq ≃ Sq) (p : Pos Sq) (a b : Sq) :
    (mirrorPos e p).dist a b = p.dist (e.symm a) (e.symm b) := rfl

@[simp] theorem mirror_distF (e : Sq ≃ Sq) (p : Pos Sq) (a b : Sq) :
    (mirrorPos e p).distF a b = p.distF (e.symm a) (e.symm b) := rfl

@[simp] theorem mirror_distR (e : Sq ≃ Sq) (p : Pos Sq) (a b : Sq) :
    (mirrorPos e p).distR a b = p.distR (e.symm a) (e.symm b) := rfl

@[simp] theorem mirror_boardBB (e : Sq ≃ Sq) (p : Pos Sq) :
    (mirrorPos e p).boardBB = bbMap e p.boardBB := rfl

@[simp] theorem mirror_relRankSq (e : Sq ≃ Sq) (p : Pos Sq) (c : Color) (s : Sq) :
    (mirrorPos e p).relRankSq c s = p.relRankSq c.other (e.symm s) := rfl

@[simp] theorem mirror_fileIdx (e : Sq ≃ Sq) (p : Pos Sq) (s : Sq) :
    (mirrorPos e p).fileIdx s = p.fileIdx (e.symm s) := rfl

@[simp] theorem mirror_maxFile (e : Sq ≃ Sq) (p : Pos Sq) :
    (mirrorPos e p).maxFile = p.maxFile := rfl

@[simp] theorem mirror_shiftD (e : Sq ≃ Sq) (p : Pos Sq) (c : Color) (b : BB Sq) :
    (mirrorPos e p).shiftD c b = bbMap e (p.shiftD c.other (bbMap e.symm b)) := rfl

@[simp] theorem mirror_shiftU (e : Sq ≃ Sq) (p : Pos Sq) (c : Color) (b : BB Sq) :
    (mirrorPos e p).shiftU c b = bbMap e (p.shiftU c.other (bbMap e.symm b)) := rfl

@[simp] theorem mirror_shiftW (e : Sq ≃ Sq) (p : Pos Sq) (b : BB Sq) :
    (mirrorPos e p).shiftW b = bbMap e (p.shiftW (bbMap e.symm b)) := rfl

@[simp] theorem mirror_shiftE (e : Sq ≃ Sq) (p : Pos Sq) (b : BB Sq) :
    (mirrorPos e p).shiftE b = bbMap e (p.shiftE (bbMap e.symm b)) := rfl

@[simp] theorem mirror_shiftDir (e : Sq ≃ Sq) (p : Pos Sq) (d : Dir) (b : BB Sq) :
    (mirrorPos e p).shiftDir d b = bbMap e (p.shiftDir d.vflip (bbMap e.symm b)) := rfl

@[simp] theorem mirror_upSq (e : Sq ≃ Sq) (p : Pos Sq) (c : Color) (s : Sq) :
    (mirrorPos e p).upSq c s = e (p.upSq c.other (e.symm s)) := rfl

@[simp] theorem mirror_pushEW (e : Sq ≃ Sq) (p : Pos Sq) (c : Color) (fl : Bool) (s : Sq) :
    (mirrorPos e p).pushEW c fl s = e (p.pushEW c.other fl (e.symm s)) := rfl

@[simp] theorem mirror_promZone (e : Sq ≃ Sq) (p : Pos Sq) (c : Color) :
    (mirrorPos e p).promZone c = bbMap e (p.promZone c.other) := rfl

@[simp] theorem mirror_forwardFile (e : Sq ≃ Sq) (p : Pos Sq) (c : Color) (s : Sq) :
    (mirrorPos e p).forwardFile c s = bbMap e (p.forwardFile c.other (e.symm s)) := rfl

@[simp] theorem mirror_ppMask (e : Sq ≃ Sq) (p : Pos Sq) (c : Color) (s : Sq) :
    (mirrorPos e p).ppMask c s = bbMap e (p.ppMask c.other (e.symm s)) := rfl

@[simp] theorem mirror_halfFor (e : Sq ≃ Sq) (p : Pos Sq) (c : Color) :
    (mirrorPos e p).halfFor c = bbMap e (p.halfFor c.other) := rfl

@[simp] theorem mirror_flankOf (e : Sq ≃ Sq) (p : Pos Sq) (s : Sq) :
    (mirrorPos e p).flankOf s = bbMap e (p.flankOf (e.symm s)) := rfl

@[simp] theorem mirror_campOf (e : Sq ≃ Sq) (p : Pos Sq) (c : Color) :
    (mirrorPos e p).campOf c = bbMap e (p.campOf c.other) := rfl

@[simp] theorem mirror_lowRanks (e : Sq ≃ Sq) (p : Pos Sq) (c : Color) :
    (mirrorPos e p).lowRanks c = bbMap e (p.lowRanks c.other) := rfl

@[simp] theorem mirror_outpostRanks (e : Sq ≃ Sq) (p : Pos Sq) (c : Color) :
    (mirrorPos e p).outpostRanks c = bbMap e (p.outpostRanks c.other) := rfl

@[simp] theorem mirror_spaceMask (e : Sq ≃ Sq) (p : Pos Sq) (c : Color) :
    (mirrorPos e p).spaceMask c = bbMap e (p.spaceMask c.other) := rfl

@[simp] theorem mirror_trank3 (e : Sq ≃ Sq) (p : Pos Sq) (c : Color) :
    (mirrorPos e p).trank3 c = bbMap e (p.trank3 c.other) := rfl

@[simp] theorem mirror_centerBB (e : Sq ≃ Sq) (p : Pos Sq) :
    (mirrorPos e p).centerBB = bbMap e p.centerBB := rfl

@[simp] theorem mirror_queenSideBB (e : Sq ≃ Sq) (p : Pos Sq) :
    (mirrorPos e p).queenSideBB = bbMap e p.queenSideBB := rfl

@[simp] theorem mirror_kingSideBB (e : Sq ≃ Sq) (p : Pos Sq) :
    (mirrorPos e p).kingSideBB = bbMap e p.kingSideBB := rfl

@[simp] theorem mirror_centerFilesBB (e : Sq ≃ Sq) (p : Pos Sq) :
    (mirrorPos e p).centerFilesBB = bbMap e p.centerFilesBB := rfl

@[simp] theorem mirror_oppColors (e : Sq ≃ Sq) (p : Pos Sq) (a b : Sq) :
    (mirrorPos e p).oppColors a b = p.oppColors (e.symm a) (e.symm b) := rfl

@[simp] theorem mirror_relSqA1 (e : Sq ≃ Sq) (p : Pos Sq) (c : Color) :
    (mirrorPos e p).relSqA1 c = e (p.relSqA1 c.other) := rfl

@[simp] theorem mirror_relSqH1 (e : Sq ≃ Sq) (p : Pos Sq) (c : Color) :
    (mirrorPos e p).relSqH1 c = e (p.relSqH1 c.other) := rfl

@[simp] theorem mirror_pawnAttacks (e : Sq ≃ Sq) (p : Pos Sq) (c : Color) :
    (mirrorPos e p).pawnAttacks c = bbMap e (p.pawnAttacks c.other) := rfl

@[simp] theorem mirror_pawnAttacksSpan (e : Sq ≃ Sq) (p : Pos Sq) (c : Color) :
    (mirrorPos e p).pawnAttacksSpan c = bbMap e (p.pawnAttacksSpan c.other) := rfl

@[simp] theorem mirror_kingSafety (e : Sq ≃ Sq) (p : Pos Sq) (c : Color) (s : Sq) :
    (mirrorPos e p).kingSafety c s = p.kingSafety c.other (e.symm s) := rfl

@[simp] theorem mirror_semiopen (e : Sq ≃ Sq) (p : Pos Sq) (c : Color) (f : ℕ) :
    (mirrorPos e p).semiopen c f = p.semiopen c.other f := rfl

@[simp] theorem mirror_pawnsOnSameColor (e : Sq ≃ Sq) (p : Pos Sq) (c : Color) (s : Sq) :
    (mirrorPos e p).pawnsOnSameColor c s = p.pawnsOnSameColor c.other (e.symm s) := rfl

@[simp] theorem mirror_weakUnopposed (e : Sq ≃ Sq) (p : Pos Sq) (c : Color) :
    (mirrorPos e p).weakUnopposed c = p.weakUnopposed c.other := rfl

@[simp] theorem mirror_openFiles (e : Sq ≃ Sq) (p : Pos Sq) :
    (mirrorPos e p).openFiles = p.openFiles := rfl

@[simp] theorem mirror_pawnAsymmetry (e : Sq ≃ Sq) (p : Pos Sq) :
    (mirrorPos e p).pawnAsymmetry = p.pawnAsymmetry := rfl

@[simp] theorem mirror_passedPawns (e : Sq ≃ Sq) (p : Pos Sq) (c : Color) :
    (mirrorPos e p).passedPawns c = bbMap e (p.passedPawns c.other) := rfl

@[simp] theorem mirror_pawnScore (e : Sq ≃ Sq) (p : Pos Sq) (c : Color) :
    (mirrorPos e p).pawnScore c = p.pawnScore c.other := rfl

@[simp] theorem mirror_imbalance (e : Sq ≃ Sq) (p : Pos Sq) :
    (mirrorPos e p).imbalance = -p.imbalance := rfl

@[simp] theorem mirror_gamePhase (e : Sq ≃ Sq) (p : Pos Sq) :
    (mirrorPos e p).gamePhase = p.gamePhase := rfl

@[simp] theorem mirror_specExists (e : Sq ≃ Sq) (p : Pos Sq) :
    (mirrorPos e p).specExists = p.specExists := rfl

@[simp] theorem mirror_specEval (e : Sq ≃ Sq) (p : Pos Sq) :
    (mirrorPos e p).specEval = -p.specEval := rfl

@[simp] theorem mirror_mscaleFactor (e : Sq ≃ Sq) (p : Pos Sq) (c : Color) :
    (mirrorPos e p).mscaleFactor c = p.mscaleFactor c.other := rfl

@[simp] theorem mirror_contempt (e : Sq ≃ Sq) (p : Pos Sq) :
    (mirrorPos e p).contempt = p.contempt := rfl

@[simp] theorem mirror_psq (e : Sq ≃ Sq) (p : Pos Sq) :
    (mirrorPos e p).psq = -p.psq := rfl

@[simp] theorem mirror_npm (e : Sq ≃ Sq) (p : Pos Sq) (c : Color) :
    (mirrorPos e p).npm c = p.npm c.other := rfl

@[simp] theorem mirror_sideToMove (e : Sq ≃ Sq) (p : Pos Sq) :
    (mirrorPos e p).sideToMove = p.sideToMove := rfl

@[simp] theorem mirror_pawnAttacksBBF (e : Sq ≃ Sq) (p : Pos Sq) (c : Color) (b : BB Sq) :
    (mirrorPos e p).pawnAttacksBBF c b = bbMap e (p.pawnAttacksBBF c.other (bbMap e.symm b)) := rfl

@[simp] theorem mirror_chess960 (e : Sq ≃ Sq) (p : Pos Sq) :
    (mirrorPos e p).chess960 = p.chess960 := rfl

@[simp] theorem mirror_mustCapture (e : Sq ≃ Sq) (p : Pos Sq) :
    (mirrorPos e p).mustCapture = p.mustCapture := rfl

@[simp] theorem mirror_capturesToHand (e : Sq ≃ Sq) (p : Pos Sq) :
    (mirrorPos e p).capturesToHand = p.capturesToHand := rfl

@[simp] theorem mirror_pieceDrops (e : Sq ≃ Sq) (p : Pos Sq) :
    (mirrorPos e p).pieceDrops = p.pieceDrops := rfl

@[simp] theorem mirror_checkingPermitted (e : Sq ≃ Sq) (p : Pos Sq) :
    (mirrorPos e p).checkingPermitted = p.checkingPermitted := rfl

@[simp] theorem mirror_shogiDoubledPawn (e : Sq ≃ Sq) (p : Pos Sq) :
    (mirrorPos e p).shogiDoubledPawn = p.shogiDoubledPawn := rfl

@[simp] theorem mirror_maxCheckCount (e : Sq ≃ Sq) (p : Pos Sq) :
    (mirrorPos e p).maxCheckCount = p.maxCheckCount := rfl

@[simp] theorem mirror_connectN (e : Sq ≃ Sq) (p : Pos Sq) :
    (mirrorPos e p).connectN = p.connectN := rfl

@[simp] theorem mirror_extinctionVal (e : Sq ≃ Sq) (p : Pos Sq) :
    (mirrorPos e p).extinctionVal = p.extinctionVal := rfl

@[simp] theorem mirror_canCastle (e : Sq ≃ Sq) (p : Pos Sq) (c : Color) :
    (mirrorPos e p).canCastle c = p.canCastle c.other := rfl

@[simp] theorem mirror_checksGiven (e : Sq ≃ Sq) (p : Pos Sq) (c : Color) :
    (mirrorPos e p).checksGiven c = p.checksGiven c.other := rfl

@[simp] theorem mirror_ctfPiece (e : Sq ≃ Sq) (p : Pos Sq) :
    (mirrorPos e p).ctfPiece = p.ctfPiece := rfl

@[simp] theorem mirror_ctfTargets (e : Sq ≃ Sq) (p : Pos Sq) (c : Color) :
    (mirrorPos e p).ctfTargets c = bbMap e (p.ctfTargets c.other) := rfl

@[simp] theorem mirror_promotedPieceType (e : Sq ≃ Sq) (p : Pos Sq) :
    (mirrorPos e p).promotedPieceType = p.promotedPieceType := rfl

@[simp] theorem mirror_promotionPieceTypes (e : Sq ≃ Sq) (p : Pos Sq) :
    (mirrorPos e p).promotionPieceTypes = p.promotionPieceTypes := rfl

@[simp] theorem mirror_pieceTypesL (e : Sq ≃ Sq) (p : Pos Sq) :
    (mirrorPos e p).pieceTypesL = p.pieceTypesL := rfl

@[simp] theorem mirror_kingPT (e : Sq ≃ Sq) (p : Pos Sq) :
    (mirrorPos e p).kingPT = p.kingPT := rfl

@[simp] theorem mirror_shogiPawnPT (e : Sq ≃ Sq) (p : Pos Sq) :
    (mirrorPos e p).shogiPawnPT = p.shogiPawnPT := rfl

@[simp] theorem mirror_dropRegion (e : Sq ≃ Sq) (p : Pos Sq) (c : Color) (t : ℕ) :
    (mirrorPos e p).dropRegion c t = bbMap e (p.dropRegion c.other t) := rfl

@[simp] theorem mirror_countInHand (e : Sq ≃ Sq) (p : Pos Sq) (c : Color) (t : ℕ) :
    (mirrorPos e p).countInHand c t = p.countInHand c.other t := rfl



end MirrorProj

section MirrorStep1

variable {Sq : Type} [DecidableEq Sq]

@[simp] theorem mapAcc_tbl (e : Sq ≃ Sq) (acc : PieceAcc Sq) (t : ℕ) :
    (mapAcc e acc).tbl t = bbMap e (acc.tbl t) := rfl

@[simp] theorem mapAcc_atk2 (e : Sq ≃ Sq) (acc : PieceAcc Sq) :
    (mapAcc e acc).atk2 = bbMap e acc.atk2 := rfl

@[simp] theorem mapAcc_ctr (e : Sq ≃ Sq) (acc : PieceAcc Sq) :
    (mapAcc e acc).ctr = acc.ctr := rfl

@[simp] theorem mapAcc_mob (e : Sq ≃ Sq) (acc : PieceAcc Sq) :
    (mapAcc e acc).mob = acc.mob := rfl

@[simp] theorem mapAcc_score (e : Sq ≃ Sq) (acc : PieceAcc Sq) :
    (mapAcc e acc).score = acc.score := rfl

@[simp] theorem mirJunk_kaw (j : Junk) (c : Color) : (mirJunk j).kaw c = j.kaw c.other := rfl

@[simp] theorem mirJunk_kak (j : Junk) (c : Color) : (mirJunk j).kak c = j.kak c.other := rfl

theorem piecesCT_mirror (e : Sq ≃ Sq) (p : Pos Sq) (c : Color) (t : ℕ) :
    piecesCT (mirrorPos e p) c t = bbMap e (piecesCT p c.other t) := by
  unfold piecesCT
  simp

theorem piecesC2T_mirror (e : Sq ≃ Sq) (p : Pos Sq) (c : Color) (t1 t2 : ℕ) :
    piecesC2T (mirrorPos e p) c t1 t2 = bbMap e (piecesC2T p c.other t1 t2) := by
  unfold piecesC2T
  simp

theorem pieces2T_mirror (e : Sq ≃ Sq) (p : Pos Sq) (t1 t2 : ℕ) :
    pieces2T (mirrorPos e p) t1 t2 = bbMap e (pieces2T p t1 t2) := by
  unfold pieces2T
  simp

theorem pawnPassed_mirror (e : Sq ≃ Sq) (p : Pos Sq) (c : Color) (s : Sq) :
    (pawnPassed (mirrorPos e p) c (e s) ↔ pawnPassed p c.other s) := by
  unfold pawnPassed
  rw [piecesCT_mirror]
  simp [← bbMap_inter]

theorem npmTotal_mirror (e : Sq ≃ Sq) (p : Pos Sq) : npmTotal (mirrorPos e p) = npmTotal p := by
  unfold npmTotal
  simp
  exact add_comm _ _

theorem blockedLowPawns_mirror (e : Sq ≃ Sq) (p : Pos Sq) (c : Color) :
    blockedLowPawns (mirrorPos e p) c = bbMap e (blockedLowPawns p c.other) := by
  unfold blockedLowPawns
  rw [piecesCT_mirror]
  simp

theorem coherent_mirror (e : Sq ≃ Sq) (p : Pos Sq) (h : Coherent p) :
    Coherent (mirrorPos e p) := by
  intro c
  simpa using h c.other

theorem atkKingInit_mirror (e : Sq ≃ Sq) (p : Pos Sq) (c : Color) :
    atkKingInit (mirrorPos e p) c = bbMap e (atkKingInit p c.other) := by
  unfold atkKingInit
  by_cases hk : p.cnt c.other p.kingPT ≠ 0
  · simp [hk]
  · simp [hk]

theorem initCondition_mirror (e : Sq ≃ Sq) (p : Pos Sq) (c : Color) :
    (initCondition (mirrorPos e p) c ↔ initCondition p c.other) := by
  unfold initCondition
  simp

variable [Fintype Sq]

theorem mobilityAreaOf_mirror (e : Sq ≃ Sq) (p : Pos Sq) (c : Color) :
    mobilityAreaOf (mirrorPos e p) c = bbMap e (mobilityAreaOf p c.other) := by
  unfold mobilityAreaOf
  by_cases hm : p.mustCapture = true
  · simp [hm]
  · simp only [mirror_mustCapture, if_neg hm]
    rw [blockedLowPawns_mirror, piecesC2T_mirror, piecesCT_mirror]
    simp

omit [Fintype Sq] in
theorem kingRingOf_mirror (e : Sq ≃ Sq) (p : Pos Sq) (c : Color) :
    kingRingOf (mirrorPos e p) c = bbMap e (kingRingOf p c.other) := by
  unfold kingRingOf
  by_cases hic : initCondition p c.other
  · rw [if_pos ((initCondition_mirror e p c).mpr hic), if_pos hic]
    rw [atkKingInit_mirror]
    simp [apply_ite (bbMap e), apply_ite (bbMap e.symm)]
  · rw [if_neg (fun h => hic ((initCondition_mirror e p c).mp h)), if_neg hic]
    simp

omit [Fintype Sq] in
theorem countersInit_mirror (e : Sq ≃ Sq) (p : Pos Sq) (j : Junk) (c : Color) :
    countersInit (mirrorPos e p) j c = countersInit p (mirJunk j) c.other := by
  unfold countersInit
  by_cases hic : initCondition p c
  · have h1 : initCondition (mirrorPos e p) c.other := by
      rw [initCondition_mirror, Color.other_other]; exact hic
    rw [if_pos h1, if_pos (by rw [Color.other_other]; exact hic)]
    rw [kingRingOf_mirror]
    simp [← bbMap_inter]
  · have h1 : ¬initCondition (mirrorPos e p) c.other := by
      rw [initCondition_mirror, Color.other_other]; exact hic
    rw [if_neg h1, if_neg (by rw [Color.other_other]; exact hic)]
    simp

end MirrorStep1

section MirrorStep2

variable {Sq : Type} [DecidableEq Sq]

theorem inter_singleton_nonempty (a : BB Sq) (x : Sq) :
    (a ∩ ({x} : BB Sq)).Nonempty ↔ x ∈ a := by
  constructor
  · rintro ⟨y, hy⟩
    rcases Finset.mem_inter.mp hy with ⟨h1, h2⟩
    rw [Finset.mem_singleton] at h2
    rwa [h2] at h1
  · intro h
    exact ⟨x, Finset.mem_inter.mpr ⟨h, Finset.mem_singleton_self x⟩⟩

theorem pinRestrict_mirror (e : Sq ≃ Sq) (p : Pos Sq) (c : Color) (s : Sq) (b : BB Sq) :
    pinRestrict (mirrorPos e p) c (e s) (bbMap e b) = bbMap e (pinRestrict p c.other s b) := by
  unfold pinRestrict
  simp [apply_ite (bbMap e)]

theorem pieceAttacks_mirror (e : Sq ≃ Sq) (p : Pos Sq) (c : Color) (pt : ℕ) (s : Sq) :
    pieceAttacks (mirrorPos e p) c pt (e s) = bbMap e (pieceAttacks p c.other pt s) := by
  unfold pieceAttacks
  rw [← pinRestrict_mirror]
  simp [piecesCT_mirror, apply_ite (bbMap e)]

theorem pieceScoreOf_mirror (e : Sq ≃ Sq) (p : Pos Sq) (c : Color) (pt : ℕ) (s : Sq)
    (b : BB Sq) (mob : ℕ) :
    pieceScoreOf (mirrorPos e p) c pt (e s) (bbMap e b) mob =
      pieceScoreOf p c.other pt s b mob := by
  unfold pieceScoreOf
  simp [piecesCT_mirror, piecesC2T_mirror, inter_singleton_nonempty, ← bbMap_singleton,
    ← bbMap_union, ← bbMap_inter, ← bbMap_sdiff]

end MirrorStep2

section MirrorStep3

variable {Sq : Type}

theorem PieceAcc.eq_of_fields {a b : PieceAcc Sq} (h1 : a.tbl = b.tbl) (h2 : a.atk2 = b.atk2)
    (h3 : a.ctr = b.ctr) (h4 : a.mob = b.mob) (h5 : a.score = b.score) : a = b := by
  cases a; cases b
  cases h1; cases h2; cases h3; cases h4; cases h5
  rfl

variable [DecidableEq Sq] [Fintype Sq]

theorem pieceStep_mirror (e : Sq ≃ Sq) (p : Pos Sq) (c : Color) (pt : ℕ)
    (acc : PieceAcc Sq) (s : Sq) :
    pieceStep (mirrorPos e p) c pt (mapAcc e acc) (e s) =
      mapAcc e (pieceStep p c.other pt acc s) := by
  unfold pieceStep
  have hb := pieceAttacks_mirror e p c pt s
  refine PieceAcc.eq_of_fields ?_ ?_ ?_ ?_ ?_
  · funext t
    simp [hb, apply_ite (bbMap e)]
  · simp [hb]
  · simp [hb, kingRingOf_mirror, atkKingInit_mirror, ← bbMap_inter]
  · simp [hb, mobilityAreaOf_mirror, ← bbMap_inter]
  · simp [hb, mobilityAreaOf_mirror, ← bbMap_inter, pieceScoreOf_mirror]

omit [Fintype Sq] in
theorem initAcc_mirror (e : Sq ≃ Sq) (p : Pos Sq) (c : Color) :
    initAcc (mirrorPos e p) c = mapAcc e (initAcc p c.other) := by
  unfold initAcc
  refine PieceAcc.eq_of_fields ?_ ?_ rfl rfl rfl
  · funext t
    simp [atkKingInit_mirror, apply_ite (bbMap e)]
  · simp [atkKingInit_mirror]

theorem foldl_pieceStep_mirror (e : Sq ≃ Sq) (p : Pos Sq) (c : Color) (pt : ℕ)
    (l : List Sq) (acc : PieceAcc Sq) :
    (l.map e).foldl (pieceStep (mirrorPos e p) c pt) (mapAcc e acc) =
      mapAcc e (l.foldl (pieceStep p c.other pt) acc) := by
  induction l generalizing acc with
  | nil => rfl
  | cons x xs ih =>
      rw [List.map_cons, List.foldl_cons, List.foldl_cons, pieceStep_mirror]
      exact ih _

theorem piecesRun_mirror (e : Sq ≃ Sq) (p : Pos Sq) (c : Color) (acc : PieceAcc Sq) (pt : ℕ) :
    piecesRun (mirrorPos e p) c (mapAcc e acc) pt = mapAcc e (piecesRun p c.other acc pt) := by
  unfold piecesRun
  have hs : (mirrorPos e p).squaresL c pt = (p.squaresL c.other pt).map e := rfl
  rw [hs]
  have hacc : ({ (mapAcc e acc) with tbl := fun t => if t = pt then ∅ else (mapAcc e acc).tbl t } :
      PieceAcc Sq) = mapAcc e { acc with tbl := fun t => if t = pt then ∅ else acc.tbl t } := by
    refine PieceAcc.eq_of_fields ?_ rfl rfl rfl rfl
    funext t
    simp [apply_ite (bbMap e)]
  rw [hacc, foldl_pieceStep_mirror]

theorem piecesPhase_mirror (e : Sq ≃ Sq) (p : Pos Sq) (c : Color) :
    piecesPhase (mirrorPos e p) c = mapAcc e (piecesPhase p c.other) := by
  unfold piecesPhase
  have hk : (mirrorPos e p).kingPT = p.kingPT := rfl
  rw [hk, initAcc_mirror]
  have main : ∀ (l : List ℕ) (acc : PieceAcc Sq),
      l.foldl (piecesRun (mirrorPos e p) c) (mapAcc e acc) =
        mapAcc e (l.foldl (piecesRun p c.other) acc) := by
    intro l
    induction l with
    | nil => intro acc; rfl
    | cons x xs ih =>
        intro acc
        rw [List.foldl_cons, List.foldl_cons, piecesRun_mirror]
        exact ih _
  exact main _ _

theorem atkTbl_mirror (e : Sq ≃ Sq) (p : Pos Sq) (c : Color) (t : ℕ) :
    atkTbl (mirrorPos e p) c t = bbMap e (atkTbl p c.other t) := by
  unfold atkTbl
  rw [piecesPhase_mirror]
  rfl

theorem atk2Of_mirror (e : Sq ≃ Sq) (p : Pos Sq) (c : Color) :
    atk2Of (mirrorPos e p) c = bbMap e (atk2Of p c.other) := by
  unfold atk2Of
  rw [piecesPhase_mirror]
  rfl

theorem handCalc_mirror (e : Sq ≃ Sq) (p : Pos Sq) (c : Color) (pt : ℕ) :
    handCalc (mirrorPos e p) c pt = handCalc p c.other pt := by
  unfold handCalc
  by_cases hh : p.countInHand c.other pt ≠ 0
  · simp only [mirror_countInHand, if_pos hh]
    rw [piecesPhase_mirror, piecesPhase_mirror, kingRingOf_mirror, atkKingInit_mirror]
    simp only [mirror_dropRegion, mirror_pieces, mirror_halfFor, mirror_shogiPawnPT,
      mapAcc_atk2, mapAcc_tbl, Color.other_other]
    simp only [← bbMap_compl, ← bbMap_union, ← bbMap_inter]
    simp only [card_bbMap, bbMap_nonempty]
  · simp only [mirror_countInHand]
    rw [if_neg hh, if_neg hh]

theorem handDeltas_mirror (e : Sq ≃ Sq) (p : Pos Sq) (c : Color) :
    handDeltas (mirrorPos e p) c = handDeltas p c.other := by
  unfold handDeltas
  have hfun : handCalc (mirrorPos e p) c = handCalc p c.other := funext (handCalc_mirror e p c)
  have hk : (mirrorPos e p).kingPT = p.kingPT := rfl
  have hd : (mirrorPos e p).pieceDrops = p.pieceDrops := rfl
  rw [hfun, hk, hd]

theorem ctrFinal_mirror (e : Sq ≃ Sq) (p : Pos Sq) (j : Junk) (c : Color) :
    ctrFinal (mirrorPos e p) j c = ctrFinal p (mirJunk j) c.other := by
  unfold ctrFinal
  rw [countersInit_mirror, piecesPhase_mirror, handDeltas_mirror]
  rfl

theorem mobFinal_mirror (e : Sq ≃ Sq) (p : Pos Sq) (c : Color) :
    mobFinal (mirrorPos e p) c = mobFinal p c.other := by
  unfold mobFinal
  rw [piecesPhase_mirror, handDeltas_mirror]
  rfl

end MirrorStep3

section MirrorStep4

variable {Sq : Type} [DecidableEq Sq] [Fintype Sq]

omit [Fintype Sq] in
theorem dangerGuard_mirror (e : Sq ≃ Sq) (p : Pos Sq) (them : Color) (kac : Int) :
    (dangerGuard (mirrorPos e p) them kac ↔ dangerGuard p them.other kac) := by
  unfold dangerGuard
  simp

theorem kingGetAttacks_mirror (e : Sq ≃ Sq) (p : Pos Sq) (c' : Color) (pt : ℕ) :
    kingGetAttacks (mirrorPos e p) c' pt = bbMap e (kingGetAttacks p c'.other pt) := by
  unfold kingGetAttacks
  rw [atkTbl_mirror]
  simp [apply_ite (bbMap e)]

theorem kingWeak_mirror (e : Sq ≃ Sq) (p : Pos Sq) (c : Color) :
    kingWeak (mirrorPos e p) c = bbMap e (kingWeak p c.other) := by
  unfold kingWeak
  simp only [atkTbl_mirror, atk2Of_mirror, mirror_kingPT, Color.other_other]
  simp

theorem kingSafe_mirror (e : Sq ≃ Sq) (p : Pos Sq) (c : Color) :
    kingSafe (mirrorPos e p) c = bbMap e (kingSafe p c.other) := by
  unfold kingSafe
  simp only [atkTbl_mirror, atk2Of_mirror, kingWeak_mirror, mirror_piecesC, Color.other_other]
  simp

theorem checkBQueen_mirror (e : Sq ≃ Sq) (p : Pos Sq) (c : Color) :
    checkBQueen (mirrorPos e p) c = bbMap e (checkBQueen p c.other) := by
  unfold checkBQueen
  simp only [kingGetAttacks_mirror, kingSafe_mirror, atkTbl_mirror, piecesCT_mirror,
    mirror_attacksBB, mirror_ksq, mirror_pieces, mirror_boardBB, Color.other_other,
    Equiv.symm_apply_apply]
  simp only [← bbMap_bbXor, bbMap_symm_bbMap, ← bbMap_compl, ← bbMap_inter]

theorem checkBSlider_mirror (e : Sq ≃ Sq) (p : Pos Sq) (c : Color) (pt : ℕ) :
    checkBSlider (mirrorPos e p) c pt = bbMap e (checkBSlider p c.other pt) := by
  unfold checkBSlider
  simp only [kingGetAttacks_mirror, atkTbl_mirror, piecesCT_mirror,
    mirror_attacksBB, mirror_ksq, mirror_pieces, mirror_boardBB, Color.other_other,
    Equiv.symm_apply_apply]
  simp only [← bbMap_bbXor, bbMap_symm_bbMap, ← bbMap_inter]

theorem checkBPawn_mirror (e : Sq ≃ Sq) (p : Pos Sq) (c : Color) :
    checkBPawn (mirrorPos e p) c = bbMap e (checkBPawn p c.other) := by
  unfold checkBPawn
  simp only [mirror_attacksBB, mirror_ksq, mirror_pieces, mirror_boardBB, Color.other_other,
    Equiv.symm_apply_apply]
  simp only [bbMap_symm_bbMap, ← bbMap_compl, ← bbMap_inter]

theorem checkBOther_mirror (e : Sq ≃ Sq) (p : Pos Sq) (c : Color) (pt : ℕ) :
    checkBOther (mirrorPos e p) c pt = bbMap e (checkBOther p c.other pt) := by
  unfold checkBOther
  simp only [kingGetAttacks_mirror, mirror_attacksBB, mirror_ksq, mirror_pieces,
    mirror_boardBB, Color.other_other, Equiv.symm_apply_apply]
  simp only [bbMap_symm_bbMap, ← bbMap_inter]

theorem checksStep_mirror (e : Sq ≃ Sq) (p : Pos Sq) (c : Color) (kd : Int) (ub : BB Sq)
    (pt : ℕ) :
    checksStep (mirrorPos e p) c (kd, bbMap e ub) pt =
      ((checksStep p c.other (kd, ub) pt).1, bbMap e (checksStep p c.other (kd, ub) pt).2) := by
  unfold checksStep
  rw [checkBQueen_mirror, checkBSlider_mirror, checkBPawn_mirror, checkBOther_mirror,
    kingSafe_mirror]
  simp only [mirror_capturesToHand, mirror_countInHand, mirror_shogiPawnPT, mirror_kingPT,
    Color.other_other, ← bbMap_inter, bbMap_nonempty, ← bbMap_union]
  split_ifs <;> rfl

end MirrorStep4

section MirrorStep5

variable {Sq : Type} [DecidableEq Sq] [Fintype Sq]

theorem foldl_checksStep_mirror (e : Sq ≃ Sq) (p : Pos Sq) (c : Color) (l : List ℕ)
    (kd : Int) (ub : BB Sq) :
    l.foldl (checksStep (mirrorPos e p) c) (kd, bbMap e ub) =
      ((l.foldl (checksStep p c.other) (kd, ub)).1,
        bbMap e (l.foldl (checksStep p c.other) (kd, ub)).2) := by
  induction l generalizing kd ub with
  | nil => rfl
  | cons x xs ih =>
      rw [List.foldl_cons, List.foldl_cons, checksStep_mirror]
      exact ih _ _

theorem kingDangerOf_mirror (e : Sq ≃ Sq) (p : Pos Sq) (j : Junk) (c : Color) :
    kingDangerOf (mirrorPos e p) j c = kingDangerOf p (mirJunk j) c.other := by
  unfold kingDangerOf
  have hl : (mirrorPos e p).pieceTypesL = p.pieceTypesL := rfl
  rw [hl]
  have hfold := foldl_checksStep_mirror e p c p.pieceTypesL 0 ∅
  rw [bbMap_empty] at hfold
  rw [hfold]
  simp only [ctrFinal_mirror, kingRingOf_mirror, kingWeak_mirror, mobilityAreaOf_mirror,
    mirror_maxCheckCount, mirror_capturesToHand, mirror_cnt, mirror_blockersForKing,
    mirror_kingSafety, mirror_ksq, Equiv.symm_apply_apply, Color.other_other,
    ← bbMap_inter, ← bbMap_union, card_bbMap]

omit [Fintype Sq] in
theorem dropCollapse_mirror (e : Sq ≃ Sq) (p : Pos Sq) (score : Score) :
    dropCollapse (mirrorPos e p) score = dropCollapse p score := rfl

theorem kingScore_mirror (e : Sq ≃ Sq) (p : Pos Sq) (j : Junk) (c : Color) :
    kingScore (mirrorPos e p) j c = kingScore p (mirJunk j) c.other := by
  unfold kingScore
  by_cases h0 : p.cnt c.other p.kingPT = 0 ∨ ¬p.checkingPermitted = true
  · rw [if_pos (by simpa using h0), if_pos h0]
  · rw [if_neg (by simpa using h0), if_neg h0]
    simp only [ctrFinal_mirror, dangerGuard_mirror, kingDangerOf_mirror, mobFinal_mirror,
      mirror_kingSafety, mirror_ksq, mirror_flankOf, mirror_piecesT, mirror_campOf,
      atkTbl_mirror, atk2Of_mirror, mirror_capturesToHand, mirror_maxCheckCount,
      mirror_shogiPawnPT, dropCollapse_mirror, Equiv.symm_apply_apply, Color.other_other,
      ← bbMap_inter, ← bbMap_union, ← bbMap_compl, card_bbMap, bbMap_eq_empty]

theorem kingDangerOf_junk_indep (p : Pos Sq) (c : Color) (j j' : Junk)
    (hic : initCondition p c) : kingDangerOf p j c = kingDangerOf p j' c := by
  unfold kingDangerOf
  rw [ctrFinal_junk_indep p c j j' hic]

theorem kingScore_junk_indep (p : Pos Sq) (hcoh : Coherent p) (j j' : Junk) (c : Color) :
    kingScore p j c = kingScore p j' c := by
  unfold kingScore
  by_cases h0 : p.cnt c p.kingPT = 0 ∨ ¬p.checkingPermitted = true
  · rw [if_pos h0, if_pos h0]
  · rw [if_neg h0, if_neg h0]
    have hk : p.cnt c p.kingPT ≠ 0 := fun h => h0 (Or.inl h)
    have hkac : (ctrFinal p j c.other).kac = (ctrFinal p j' c.other).kac :=
      ctrFinal_kac_junk_indep p j j' c.other
    by_cases hg : dangerGuard p c.other ((ctrFinal p j c.other).kac)
    · have hic := guard_implies_initCond p c j hk hcoh hg
      have hkd := kingDangerOf_junk_indep p c j j' hic
      simp only [hkac, hkd]
    · have hg2 : ¬dangerGuard p c.other ((ctrFinal p j' c.other).kac) := by
        rw [← hkac]; exact hg
      simp only [hkac, if_neg hg2]

end MirrorStep5

section MirrorStep6

variable {Sq : Type} [DecidableEq Sq] [Fintype Sq]

omit [Fintype Sq] in
theorem bbMap_biUnion_rev (e : Sq ≃ Sq) (s : BB Sq) (f : Sq → BB Sq) :
    (bbMap e s).biUnion f = bbMap e (s.biUnion (fun x => bbMap e.symm (f (e x)))) := by
  rw [bbMap_biUnion]
  refine Finset.biUnion_congr rfl ?_
  intro x hx
  simp

theorem threatsScore_mirror (e : Sq ≃ Sq) (p : Pos Sq) (c : Color) :
    threatsScore (mirrorPos e p) c = threatsScore p c.other := by
  unfold threatsScore
  simp only [mirror_mustCapture, mirror_piecesC, mirror_pieces, mirror_piecesT, mirror_typeOn,
    mirror_kingPT, mirror_movesFrom, mirror_shogiPawnPT, mirror_cnt, mirror_qsq,
    mirror_attacksFrom, mirror_weakUnopposed, mirror_pawnAttacksBBF, mirror_shiftU,
    mirror_trank3, mirror_relRankSq, mirror_capturesToHand,
    piecesCT_mirror, piecesC2T_mirror, atkTbl_mirror, atk2Of_mirror, mobilityAreaOf_mirror,
    Color.other_other, Equiv.symm_apply_apply]
  simp only [bbMap_biUnion_rev, apply_ite (bbMap e.symm), bbMap_symm_bbMap, bbMap_empty]
  simp only [← bbMap_bbXor, ← bbMap_compl, ← bbMap_inter, ← bbMap_union, ← bbMap_sdiff,
    bbMap_symm_bbMap, bbMap_eq_empty, bbMap_nonempty, card_bbMap]
  simp only [sum_bbMap, Equiv.symm_apply_apply]

end MirrorStep6

section MirrorStep7

variable {Sq : Type} [DecidableEq Sq] [Fintype Sq]

omit [Fintype Sq] in
theorem kingProximity_mirror (e : Sq ≃ Sq) (p : Pos Sq) (c : Color) (s : Sq) :
    kingProximity (mirrorPos e p) c (e s) = kingProximity p c.other s := by
  unfold kingProximity
  simp only [mirror_cnt, mirror_kingPT, mirror_dist, mirror_ksq, Equiv.symm_apply_apply]

omit [Fintype Sq] in
theorem passedHalveCond_mirror (e : Sq ≃ Sq) (p : Pos Sq) (c : Color) (s : Sq) :
    (passedHalveCond (mirrorPos e p) c (e s) ↔ passedHalveCond p c.other s) := by
  unfold passedHalveCond
  rw [mirror_upSq, pawnPassed_mirror]
  simp only [mirror_piecesT, mirror_forwardFile, Equiv.symm_apply_apply,
    ← bbMap_inter, bbMap_nonempty]

theorem passedPawnScore_mirror (e : Sq ≃ Sq) (p : Pos Sq) (c : Color) (s : Sq) :
    passedPawnScore (mirrorPos e p) c (e s) = passedPawnScore p c.other s := by
  unfold passedPawnScore
  simp only [mirror_forwardFile, mirror_piecesC, mirror_relRankSq, mirror_extinctionVal,
    mirror_upSq, mirror_emptySq, mirror_attacksFrom, mirror_fileIdx,
    atkTbl_mirror, pieces2T_mirror, Color.other_other, Equiv.symm_apply_apply,
    passedHalveCond_mirror, kingProximity_mirror]
  simp only [← bbMap_inter, ← bbMap_union, bbMap_symm_bbMap]
  simp only [← apply_ite (bbMap e)]
  simp only [bbMap_nonempty, bbMap_eq_empty, bbMap_inj, card_bbMap, mem_bbMap_apply]

theorem passedScore_mirror (e : Sq ≃ Sq) (p : Pos Sq) (c : Color) :
    passedScore (mirrorPos e p) c = passedScore p c.other := by
  unfold passedScore
  simp only [mirror_passedPawns, mirror_promotionPieceTypes, sum_bbMap, passedPawnScore_mirror]

theorem spaceScore_mirror (e : Sq ≃ Sq) (p : Pos Sq) (c : Color) :
    spaceScore (mirrorPos e p) c = spaceScore p c.other := by
  unfold spaceScore
  simp only [mirror_piecesC, mirror_capturesToHand, mirror_spaceMask, mirror_shogiPawnPT,
    mirror_shiftD, mirror_openFiles, mirror_cnt, npmTotal_mirror,
    piecesCT_mirror, piecesC2T_mirror, atkTbl_mirror, Color.other_other,
    Equiv.symm_apply_apply]
  simp only [← bbMap_bbXor, ← bbMap_compl, ← bbMap_inter, ← bbMap_union, ← bbMap_sdiff,
    bbMap_symm_bbMap]
  simp only [← apply_ite (bbMap e)]
  simp only [← bbMap_inter, bbMap_eq_empty, card_bbMap]

end MirrorStep7

section MirrorStep8

variable {Sq : Type} [DecidableEq Sq] [Fintype Sq]

theorem Dir.vflip_negd (d : Dir) : d.negd.vflip = d.vflip.negd := by
  cases d <;> rfl

omit [Fintype Sq] in
theorem connectGo_conj (e : Sq ≃ Sq) (n : ℕ) (coef : Score)
    (step step' : BB Sq → BB Sq)
    (hstep : ∀ b, step' (bbMap e b) = bbMap e (step b)) :
    ∀ (fuel i : ℕ) (b : BB Sq),
      connectGo n coef step' fuel i (bbMap e b) = connectGo n coef step fuel i b := by
  intro fuel
  induction fuel with
  | zero => intro i b; rfl
  | succ fuel ih =>
    intro i b
    rw [connectGo, connectGo, hstep, ih]
    simp only [bbMap_eq_empty, card_bbMap]

theorem connectDirScore_mirror (e : Sq ≃ Sq) (p : Pos Sq) (c : Color) (d : Dir) :
    connectDirScore (mirrorPos e p) c d = connectDirScore p c.other d.vflip := by
  unfold connectDirScore
  simp only [mirror_connectN, mirror_piecesC, mirror_pieces, mirror_shiftDir, mirror_boardBB,
    Color.other_other]
  rw [connectGo_conj e p.connectN ⟨100, 100⟩ _ _ ?hsolid,
    connectGo_conj e p.connectN ⟨50, 50⟩ _ _ ?hgap]
  case hsolid =>
    intro b
    simp only [bbMap_symm_bbMap, ← bbMap_compl, ← bbMap_inter, ← bbMap_union, ← bbMap_sdiff,
      Dir.vflip_negd]
  case hgap =>
    intro b
    simp only [bbMap_symm_bbMap, ← bbMap_compl, ← bbMap_inter, ← bbMap_union, ← bbMap_sdiff,
      Dir.vflip_negd]

theorem dirList_vflip_perm : (dirList.map Dir.vflip).Perm dirList := by decide

theorem variantScore_mirror (e : Sq ≃ Sq) (p : Pos Sq) (c : Color) :
    variantScore (mirrorPos e p) c = variantScore p c.other := by
  unfold variantScore
  simp only [mirror_ctfTargets, mirror_ctfPiece, mirror_kingPT, mirror_cnt, mirror_dist,
    mirror_attackersTo, mirror_piecesC, mirror_checkingPermitted, mirror_maxCheckCount,
    mirror_checksGiven, mirror_connectN, piecesCT_mirror,
    Color.other_other, Equiv.symm_apply_apply, sum_bbMap]
  simp only [← bbMap_inter, bbMap_symm_bbMap, card_bbMap, bbMap_nonempty, mem_bbMap_apply,
    Equiv.symm_apply_apply]
  have hmap : connectDirScore (mirrorPos e p) c = connectDirScore p c.other ∘ Dir.vflip :=
    funext fun d => connectDirScore_mirror e p c d
  rw [hmap, ← List.map_map, (dirList_vflip_perm.map (connectDirScore p c.other)).sum_eq]

end MirrorStep8

section MirrorStep9

variable {Sq : Type} [DecidableEq Sq] [Fintype Sq]

theorem initiativeRaw_neg (C eg : Int) : initiativeRaw C (-eg) = -initiativeRaw C eg := by
  unfold initiativeRaw btiP
  simp only [neg_pos, neg_lt_zero, abs_neg]
  ring

omit [Fintype Sq] in
theorem initiativeScore_neg (p : Pos Sq) (eg : Int) :
    initiativeScore p (-eg) = -initiativeScore p eg := by
  unfold initiativeScore
  split
  · apply Score.eq_of_parts <;> simp
  · apply Score.eq_of_parts <;> simp [initiativeRaw_neg]

omit [Fintype Sq] in
theorem initiativeScore_mirror (e : Sq ≃ Sq) (p : Pos Sq) (hm : MirrorFacts p) (eg : Int) :
    initiativeScore (mirrorPos e p) eg = initiativeScore p eg := by
  unfold initiativeScore
  simp only [mirror_extinctionVal, mirror_capturesToHand, mirror_connectN, mirror_cnt,
    mirror_kingPT, mirror_ksq, mirror_distF, mirror_distR, mirror_piecesT,
    mirror_queenSideBB, mirror_kingSideBB, mirror_pawnAsymmetry, npmTotal_mirror,
    Color.other_white, Color.other_black, Equiv.symm_apply_apply]
  simp only [← bbMap_inter, bbMap_nonempty]
  rw [hm.1 (p.ksq Color.black) (p.ksq Color.white), hm.2.1 (p.ksq Color.black) (p.ksq Color.white)]
  simp only [@or_comm (p.cnt Color.black p.kingPT = 0) (p.cnt Color.white p.kingPT = 0)]
  rw [add_comm ((p.cnt Color.black PAWN : Int)) ((p.cnt Color.white PAWN : Int))]

omit [Fintype Sq] in
theorem oppositeBishops_mirror (e : Sq ≃ Sq) (p : Pos Sq) (hm : MirrorFacts p) :
    (oppositeBishops (mirrorPos e p) ↔ oppositeBishops p) := by
  unfold oppositeBishops
  simp only [mirror_cnt, mirror_bsq, mirror_oppColors, Equiv.symm_apply_apply,
    Color.other_white, Color.other_black]
  rw [hm.2.2 (p.bsq Color.black) (p.bsq Color.white)]
  tauto

omit [Fintype Sq] in
theorem scaleFactorOf_mirror (e : Sq ≃ Sq) (p : Pos Sq) (hm : MirrorFacts p) (eg : Int)
    (h : eg ≠ 0) :
    scaleFactorOf (mirrorPos e p) (-eg) = scaleFactorOf p eg := by
  have hstrong : (if 0 < -eg then Color.white else Color.black) =
      (if 0 < eg then Color.white else Color.black).other := by
    rcases lt_trichotomy eg 0 with hlt | heq | hgt
    · rw [if_pos (neg_pos.mpr hlt), if_neg (not_lt.mpr hlt.le)]; rfl
    · exact absurd heq h
    · rw [if_neg (not_lt.mpr (neg_nonpos.mpr hgt.le)), if_pos hgt]; rfl
  simp only [scaleFactorOf]
  rw [hstrong]
  simp only [mirror_mscaleFactor, mirror_cnt, mirror_npm, mirror_capturesToHand,
    Color.other_other, Color.other_white, Color.other_black,
    oppositeBishops_mirror e p hm]
  simp only [@and_comm (p.npm Color.black = BishopValueMg) (p.npm Color.white = BishopValueMg)]

theorem mainValue_eq_interp (p : Pos Sq) (j : Junk) :
    mainValue p j = interpOf p (score4Of p j) := rfl

theorem score3Of_mirror (e : Sq ≃ Sq) (p : Pos Sq) (hc : p.contempt = 0) (j : Junk) :
    score3Of (mirrorPos e p) j = -score3Of p (mirJunk j) := by
  unfold score3Of
  simp only [mirror_psq, mirror_imbalance, mirror_contempt, mirror_pawnScore,
    mirror_capturesToHand, mirror_mustCapture, piecesPhase_mirror, mapAcc_score,
    mobFinal_mirror, kingScore_mirror, threatsScore_mirror, passedScore_mirror,
    spaceScore_mirror, variantScore_mirror, Color.other_white, Color.other_black, hc]
  apply Score.eq_of_parts <;>
    simp only [Score.add_mg, Score.add_eg, Score.sub_mg, Score.sub_eg, Score.neg_mg,
      Score.neg_eg, Score.scale_mg, Score.scale_eg, Score.zero_mg, Score.zero_eg] <;>
    ring

theorem score4Of_mirror (e : Sq ≃ Sq) (p : Pos Sq) (hm : MirrorFacts p)
    (hc : p.contempt = 0) (j : Junk) :
    score4Of (mirrorPos e p) j = -score4Of p (mirJunk j) := by
  unfold score4Of
  rw [score3Of_mirror e p hc j, Score.neg_eg, initiativeScore_mirror e p hm,
    initiativeScore_neg, ← Score.neg_add]

omit [Fintype Sq] in
theorem interpOf_mirror (e : Sq ≃ Sq) (p : Pos Sq) (hm : MirrorFacts p) (s : Score) :
    interpOf (mirrorPos e p) (-s) = -interpOf p s := by
  unfold interpOf
  simp only [mirror_gamePhase, Score.neg_mg, Score.neg_eg]
  by_cases h : s.eg = 0
  · rw [h]
    simp only [neg_zero, zero_mul, Int.zero_tdiv, add_zero, neg_mul, Int.neg_tdiv]
  · rw [scaleFactorOf_mirror e p hm s.eg h]
    simp only [neg_mul, Int.neg_tdiv, ← neg_add]

theorem score3Of_junk_indep (p : Pos Sq) (hcoh : Coherent p) (j j' : Junk) :
    score3Of p j = score3Of p j' := by
  unfold score3Of
  rw [kingScore_junk_indep p hcoh j j' Color.white, kingScore_junk_indep p hcoh j j' Color.black]

theorem mainValue_junk_indep (p : Pos Sq) (hcoh : Coherent p) (j j' : Junk) :
    mainValue p j = mainValue p j' := by
  rw [mainValue_eq_interp, mainValue_eq_interp]
  unfold score4Of
  rw [score3Of_junk_indep p hcoh j j']

theorem mainValue_mirror (e : Sq ≃ Sq) (p : Pos Sq) (hm : MirrorFacts p)
    (hc : p.contempt = 0) (j : Junk) :
    mainValue (mirrorPos e p) j = -mainValue p (mirJunk j) := by
  rw [mainValue_eq_interp, mainValue_eq_interp, score4Of_mirror e p hm hc j,
    interpOf_mirror e p hm]

end MirrorStep9

section ClaimC1

/-- C1, as stated, is false: the claim asserts that for every position the
evaluation minus the tempo term negates under color mirroring.  The thread
contempt score enters `value()` unnegated (evaluate.cpp line 1043: it is a
thread property, not a position property, and `mirror_color` leaves it in
place), so a position evaluated with a nonzero contempt breaks the
antisymmetry: on the two-square instance with a king each and contempt
`(64, 0)`, both the position and its mirror evaluate to `64` plus tempo,
while the claim demands opposite signs. -/
theorem c1_claim_false :
    ¬(evaluateOf posC1ce ({} : Junk) - tempoValue posC1ce
        = -(evaluateOf (mirrorPos (Equiv.swap 0 1) posC1ce) ({} : Junk)
            - tempoValue (mirrorPos (Equiv.swap 0 1) posC1ce))) := by
  decide

/-- C1 (amended): color symmetry of the public evaluator holds for
positions evaluated without a specialized material shortcut and with zero
thread contempt.  For every such position (with sane external collaborators:
coherent material sums and symmetric distance/color primitives) and every
square relabeling realizing the mirror, the evaluation minus the tempo term
negates under color mirroring, for any contents of the indeterminate
king-attack counter memory on either run. -/
theorem c1_amended {Sq : Type} [DecidableEq Sq] [Fintype Sq] (e : Sq ≃ Sq) (p : Pos Sq)
    (jp jm : Junk) (hspec : p.specExists = false) (hc : p.contempt = 0)
    (hcoh : Coherent p) (hm : MirrorFacts p) :
    evaluateOf (mirrorPos e p) jm - tempoValue (mirrorPos e p)
      = -(evaluateOf p jp - tempoValue p) := by
  unfold evaluateOf valueOf
  simp only [mirror_specExists, mirror_sideToMove, hspec, Bool.false_eq_true, if_false,
    add_sub_cancel_right]
  rw [mainValue_mirror e p hm hc jm, mainValue_junk_indep p hcoh (mirJunk jm) jp]
  split <;> ring

/-- Witness for the amended C1 at a concrete trivial instance. -/
theorem c1_witness :
    evaluateOf (mirrorPos (Equiv.refl (Fin 1)) trivialF1) ({} : Junk)
        - tempoValue (mirrorPos (Equiv.refl (Fin 1)) trivialF1)
      = -(evaluateOf trivialF1 ({} : Junk) - tempoValue trivialF1) :=
  c1_amended (Equiv.refl (Fin 1)) trivialF1 ({} : Junk) ({} : Junk) rfl rfl
    (fun c => by cases c <;> decide)
    ⟨fun a b => rfl, fun a b => rfl, fun a b => rfl⟩

end ClaimC1

end SF
